import Mathlib

/-!
Verification of the reconciliation-and-sync engine of icloudAlbum2hugo.

The Rust source is embedded shallowly: `HashMap<String, T>` becomes an
association list `List (String × T)` with lookup/insert/erase helpers,
`DateTime<Utc>` becomes a record of calendar fields, `Utc::now()` becomes an
explicit `now` argument threaded through every mutating operation, and the
external collaborators (HTTP download, directory removal, EXIF extraction,
reverse geocoding) become oracle functions collected in `SyncEnv`.
-/

/-- Calendar timestamp standing in for chrono `DateTime<Utc>`. -/
structure DateTime where
  year : Int
  month : Nat
  day : Nat
  hour : Nat
  minute : Nat
  second : Nat
deriving DecidableEq, Repr

/-- Linearisation of a timestamp; strictly monotone in time for in-range
calendar fields, used to compare instants the way chrono `Ord` does. -/
def DateTime.serial (d : DateTime) : Int :=
  ((((d.year * 13 + d.month) * 32 + d.day) * 24 + d.hour) * 60 + d.minute) * 60 + d.second

/-- Strict "earlier than" order on timestamps. -/
def DateTime.before (a b : DateTime) : Prop := a.serial < b.serial

instance (a b : DateTime) : Decidable (a.before b) := by
  unfold DateTime.before; infer_instance

/-- English month name, as produced by chrono format specifier %B. -/
def monthName : Nat → String
  | 1 => "January"
  | 2 => "February"
  | 3 => "March"
  | 4 => "April"
  | 5 => "May"
  | 6 => "June"
  | 7 => "July"
  | 8 => "August"
  | 9 => "September"
  | 10 => "October"
  | 11 => "November"
  | 12 => "December"
  | _ => ""

/-- Day of month space-padded to two characters (chrono %e). -/
def padDay (d : Nat) : String :=
  if d < 10 then " " ++ toString d else toString d

/-- Year zero-padded to four digits for nonnegative years (chrono %Y). -/
def padYear (y : Int) : String :=
  if y < 0 then toString y
  else if y < 10 then "000" ++ toString y
  else if y < 100 then "00" ++ toString y
  else if y < 1000 then "0" ++ toString y
  else toString y

/-- Long date format "%B %e, %Y", e.g. "December 25, 2023". -/
def DateTime.formatLong (d : DateTime) : String :=
  monthName d.month ++ " " ++ padDay d.day ++ ", " ++ padYear d.year

/-- Location struct from geocode.rs. -/
structure Location where
  formatted_address : String
  city : Option String
  state : Option String
  country : Option String
deriving DecidableEq, Repr

/-- ExifMetadata struct from exif.rs; f64/f32 fields are carried as opaque
integers since no claim computes with them. -/
structure ExifMetadata where
  camera_make : Option String
  camera_model : Option String
  date_time : Option DateTime
  latitude : Option Int
  longitude : Option Int
  fuzzed_latitude : Option Int
  fuzzed_longitude : Option Int
  iso : Option Nat
  exposure_time : Option String
  f_number : Option Int
  focal_length : Option Int
deriving DecidableEq, Repr

/-- Remote photo record from icloud.rs. -/
structure Photo where
  guid : String
  filename : String
  caption : Option String
  created_at : DateTime
  checksum : String
  url : String
  width : Nat
  height : Nat
  mime_type : String
deriving DecidableEq, Repr

/-- Album from icloud.rs; the Rust `HashMap<String, Photo>` keyed by guid is
embedded as the list of its photos (every construction site keys by
`photo.guid`). -/
structure Album where
  name : String
  photos : List Photo
deriving DecidableEq, Repr

/-- Guids of the remote album, the key set of the Rust photo map. -/
def Album.guids (a : Album) : List String := a.photos.map Photo.guid

/-- IndexedPhoto struct from index.rs. -/
structure IndexedPhoto where
  guid : String
  filename : String
  caption : Option String
  created_at : DateTime
  checksum : String
  url : String
  width : Nat
  height : Nat
  last_sync : DateTime
  local_path : String
  camera_make : Option String
  camera_model : Option String
  exif_date_time : Option DateTime
  latitude : Option Int
  longitude : Option Int
  fuzzed_latitude : Option Int
  fuzzed_longitude : Option Int
  iso : Option Nat
  exposure_time : Option String
  f_number : Option Int
  focal_length : Option Int
  location : Option Location
deriving DecidableEq, Repr

/-- IndexedPhoto::new; `now` embeds the `Utc::now()` call that initialises
`last_sync`. -/
def IndexedPhoto.new (guid filename : String) (caption : Option String)
    (created_at : DateTime) (checksum url : String) (width height : Nat)
    (local_path : String) (now : DateTime) : IndexedPhoto :=
  { guid := guid
    filename := filename
    caption := caption
    created_at := created_at
    checksum := checksum
    url := url
    width := width
    height := height
    last_sync := now
    local_path := local_path
    camera_make := none
    camera_model := none
    exif_date_time := none
    latitude := none
    longitude := none
    fuzzed_latitude := none
    fuzzed_longitude := none
    iso := none
    exposure_time := none
    f_number := none
    focal_length := none
    location := none }

/-- IndexedPhoto::update_exif. -/
def IndexedPhoto.update_exif (p : IndexedPhoto) (exif : ExifMetadata) : IndexedPhoto :=
  { p with
    camera_make := exif.camera_make
    camera_model := exif.camera_model
    exif_date_time := exif.date_time
    latitude := exif.latitude
    longitude := exif.longitude
    fuzzed_latitude := exif.fuzzed_latitude
    fuzzed_longitude := exif.fuzzed_longitude
    iso := exif.iso
    exposure_time := exif.exposure_time
    f_number := exif.f_number
    focal_length := exif.focal_length }

/-- IndexedPhoto::update_location. -/
def IndexedPhoto.update_location (p : IndexedPhoto) (location : Location) : IndexedPhoto :=
  { p with location := some location }

/-- Gallery struct from index.rs. -/
structure Gallery where
  id : String
  name : String
  slug : String
  description : Option String
  photos : List String
  created_at : DateTime
  updated_at : DateTime
deriving DecidableEq, Repr

/-- Gallery::new; `now` embeds the two `Utc::now()` calls. -/
def Gallery.new (id name slug : String) (description : Option String)
    (now : DateTime) : Gallery :=
  { id := id, name := name, slug := slug, description := description
    photos := [], created_at := now, updated_at := now }

/-- Gallery::add_photo: append the guid unless already a member, bumping
`updated_at` on an actual change. -/
def Gallery.add_photo (g : Gallery) (guid : String) (now : DateTime) : Gallery :=
  if guid ∈ g.photos then g
  else { g with photos := g.photos ++ [guid], updated_at := now }

/-- Removal of the first occurrence of an element, as `Vec::remove` at the
position found by `Iterator::position`. -/
def removeFirst (guid : String) : List String → List String
  | [] => []
  | x :: xs => if x = guid then xs else x :: removeFirst guid xs

/-- Gallery::remove_photo: drop the first occurrence of the guid, bumping
`updated_at` only when it was present. -/
def Gallery.remove_photo (g : Gallery) (guid : String) (now : DateTime) : Gallery :=
  if guid ∈ g.photos then
    { g with photos := removeFirst guid g.photos, updated_at := now }
  else g

/-- Lookup in an association list, the embedding of `HashMap::get`. -/
def lookupKey {α : Type} (k : String) : List (String × α) → Option α
  | [] => none
  | e :: es => if e.1 = k then some e.2 else lookupKey k es

/-- Removal of every binding of a key, the embedding of `HashMap::remove`'s
effect on the map contents. -/
def eraseKey {α : Type} (k : String) : List (String × α) → List (String × α)
  | [] => []
  | e :: es => if e.1 = k then eraseKey k es else e :: eraseKey k es

/-- Insert-or-replace, the embedding of `HashMap::insert`. -/
def insertKey {α : Type} (k : String) (v : α) (l : List (String × α)) :
    List (String × α) :=
  (k, v) :: eraseKey k l

/-- In-place update of the first binding of a key, the embedding of a
mutation through `HashMap::get_mut`. -/
def modifyValue {α : Type} (k : String) (f : α → α) :
    List (String × α) → List (String × α)
  | [] => []
  | e :: es => if e.1 = k then (e.1, f e.2) :: es else e :: modifyValue k f es

/-- Key set of an association list, the embedding of `HashMap::keys`. -/
def keysOf {α : Type} (l : List (String × α)) : List String := l.map Prod.fst

/-- PhotoIndex struct from index.rs. -/
structure PhotoIndex where
  last_updated : DateTime
  photos : List (String × IndexedPhoto)
  galleries : List (String × Gallery)
deriving DecidableEq, Repr

/-- PhotoIndex::new; `now` embeds the `Utc::now()` call. -/
def PhotoIndex.new (now : DateTime) : PhotoIndex :=
  { last_updated := now, photos := [], galleries := [] }

/-- PhotoIndex::get_photo. -/
def PhotoIndex.get_photo (idx : PhotoIndex) (guid : String) : Option IndexedPhoto :=
  lookupKey guid idx.photos

/-- PhotoIndex::photo_count. -/
def PhotoIndex.photo_count (idx : PhotoIndex) : Nat := idx.photos.length

/-- PhotoIndex::add_or_update_photo: keyed insert plus `last_updated` bump. -/
def PhotoIndex.add_or_update_photo (idx : PhotoIndex) (photo : IndexedPhoto)
    (now : DateTime) : PhotoIndex :=
  { idx with photos := insertKey photo.guid photo idx.photos, last_updated := now }

/-- PhotoIndex::remove_photo: cascade-remove the guid from every gallery's
member list, then remove it from the photo map, bumping `last_updated` only
when the photo was present. -/
def PhotoIndex.remove_photo (idx : PhotoIndex) (guid : String)
    (now : DateTime) : PhotoIndex :=
  let galleries' := idx.galleries.map (fun e => (e.1, e.2.remove_photo guid now))
  let present := (lookupKey guid idx.photos).isSome
  { last_updated := if present then now else idx.last_updated
    photos := eraseKey guid idx.photos
    galleries := galleries' }

/-- PhotoIndex::get_gallery. -/
def PhotoIndex.get_gallery (idx : PhotoIndex) (id : String) : Option Gallery :=
  lookupKey id idx.galleries

/-- PhotoIndex::gallery_count. -/
def PhotoIndex.gallery_count (idx : PhotoIndex) : Nat := idx.galleries.length

/-- PhotoIndex::add_or_update_gallery. -/
def PhotoIndex.add_or_update_gallery (idx : PhotoIndex) (gallery : Gallery)
    (now : DateTime) : PhotoIndex :=
  { idx with galleries := insertKey gallery.id gallery idx.galleries
             last_updated := now }

/-- PhotoIndex::remove_gallery. -/
def PhotoIndex.remove_gallery (idx : PhotoIndex) (id : String)
    (now : DateTime) : PhotoIndex :=
  let present := (lookupKey id idx.galleries).isSome
  { idx with galleries := eraseKey id idx.galleries
             last_updated := if present then now else idx.last_updated }

/-- Mutation `gallery.add_photo(guid)` reached through
`index.galleries.get_mut(&gallery_id)`, as performed by
GallerySyncer::sync_gallery; a missing gallery id is silently a no-op. -/
def PhotoIndex.gallery_add_photo (idx : PhotoIndex) (gid guid : String)
    (now : DateTime) : PhotoIndex :=
  { idx with galleries := modifyValue gid (fun g => g.add_photo guid now) idx.galleries }

/-- Mutation `gallery.remove_photo(&guid)` reached through
`index.galleries.get_mut(&gallery_id)`, as performed by
GallerySyncer::sync_gallery. -/
def PhotoIndex.gallery_remove_photo (idx : PhotoIndex) (gid guid : String)
    (now : DateTime) : PhotoIndex :=
  { idx with galleries := modifyValue gid (fun g => g.remove_photo guid now) idx.galleries }

/-- Member list of a gallery of the index, empty when the id is unknown. -/
def PhotoIndex.membersAt (idx : PhotoIndex) (gid : String) : List String :=
  match idx.get_gallery gid with
  | some g => g.photos
  | none => []

/-- Whitespace trimming over the character list, the embedding of Rust
`str::trim` (written structurally so that the kernel can evaluate it). -/
def trimChars (cs : List Char) : List Char :=
  ((cs.dropWhile Char.isWhitespace).reverse.dropWhile Char.isWhitespace).reverse

/-- String form of `trimChars`. -/
def trimStr (s : String) : String := ⟨trimChars s.data⟩

/-- format_photo_title from sync.rs: long capture date (EXIF date preferred,
`created_at` fallback), then city (falling back to the formatted address)
when a location is resolved, then camera make+model (or whichever is
present), joined with ", ". -/
def format_photo_title (photo : IndexedPhoto) : String :=
  let display_date := photo.exif_date_time.getD photo.created_at
  let formatted_date := display_date.formatLong
  let parts1 := [formatted_date]
  let parts2 :=
    match photo.location with
    | some location =>
      match location.city with
      | some city => parts1 ++ [city]
      | none => parts1 ++ [location.formatted_address]
    | none => parts1
  let parts3 :=
    match photo.camera_make, photo.camera_model with
    | some make, some model => parts2 ++ [trimStr make ++ " " ++ trimStr model]
    | none, some model => parts2 ++ [model]
    | some make, none => parts2 ++ [make]
    | none, none => parts2
  String.intercalate ", " parts3

/-- Modelled from the spec: title synthesis described in the Output Shaper
section — comma-join the long capture date (prefer the extracted precise
time, fall back to `created_at`), the place description if resolved
(prefer a short place name over the full formatted address), and the camera
make+model if both present (else whichever is present), omitting absent
parts entirely. Used only to compare against `format_photo_title`. -/
def title_spec (photo : IndexedPhoto) : String :=
  String.intercalate ", "
    ([(photo.exif_date_time.getD photo.created_at).formatLong]
      ++ (match photo.location with
          | some location => [location.city.getD location.formatted_address]
          | none => [])
      ++ (match photo.camera_make, photo.camera_model with
          | some make, some model => [trimStr make ++ " " ++ trimStr model]
          | some make, none => [make]
          | none, some model => [model]
          | none, none => []))

/-- Classification of one remote photo against the local index, as decided
at the top of Syncer::process_additions_and_updates. -/
inductive PhotoClass where
  | added
  | changed
  | unchanged
deriving DecidableEq, Repr

/-- Per-photo diff classification: absent from the index means new, present
with a differing checksum means changed, present with an equal checksum
means unchanged. -/
def classify_photo (index : PhotoIndex) (p : Photo) : PhotoClass :=
  match index.get_photo p.guid with
  | some existing => if existing.checksum = p.checksum then .unchanged else .changed
  | none => .added

/-- Orphan computation of Syncer::sync_photos: local index keys absent from
the remote guid set. -/
def orphaned_guids (index : PhotoIndex) (album : Album) : List String :=
  (keysOf index.photos).filter (fun g => decide (g ∉ album.guids))

/-- C1: the photostream diff classifies every remote photo into exactly one
of new / changed / unchanged, characterised by index membership and checksum
comparison, and the orphaned set is exactly the set of local index keys that
are not remote guids; orphaned guids are disjoint from the remote guid set. -/
theorem classify_partitions (index : PhotoIndex) (album : Album) :
    (∀ p ∈ album.photos,
        (classify_photo index p = PhotoClass.added ↔ index.get_photo p.guid = none)
      ∧ (classify_photo index p = PhotoClass.changed ↔
          ∃ e, index.get_photo p.guid = some e ∧ e.checksum ≠ p.checksum)
      ∧ (classify_photo index p = PhotoClass.unchanged ↔
          ∃ e, index.get_photo p.guid = some e ∧ e.checksum = p.checksum))
    ∧ (∀ g, g ∈ orphaned_guids index album ↔
          g ∈ keysOf index.photos ∧ g ∉ album.guids)
    ∧ (∀ p ∈ album.photos, p.guid ∉ orphaned_guids index album) := by
  refine ⟨?_, ?_, ?_⟩
  · intro p _
    unfold classify_photo
    cases h : index.get_photo p.guid with
    | none => simp
    | some e =>
      by_cases hc : e.checksum = p.checksum <;> simp [hc]
  · intro g
    unfold orphaned_guids
    simp [List.mem_filter]
  · intro p hp hmem
    unfold orphaned_guids at hmem
    rw [List.mem_filter] at hmem
    have : p.guid ∈ album.guids := List.mem_map_of_mem Photo.guid hp
    simpa [this] using hmem.2

/-- Concrete photo of the title-synthesis scenario in the spec: EXIF date
2023-12-25, resolved place with short name "Chicago", camera make "Acme"
and model "X100". -/
def chicagoPhoto : IndexedPhoto :=
  { (IndexedPhoto.new "p1" "p1.jpg" none ⟨2023, 1, 1, 0, 0, 0⟩ "c" "u" 800 600
      "p1/original.jpg" ⟨2023, 1, 1, 0, 0, 0⟩) with
    exif_date_time := some ⟨2023, 12, 25, 10, 30, 0⟩
    location := some
      { formatted_address := "Chicago, IL, USA"
        city := some "Chicago"
        state := some "Illinois"
        country := some "United States" }
    camera_make := some "Acme"
    camera_model := some "X100" }

/-- C7: the title synthesised for the concrete scenario is exactly
"December 25, 2023, Chicago, Acme X100", and for every photo the code's
title equals the spec-worded synthesis (comma-joined parts, absent parts
omitted, EXIF date preferred, short city name preferred, make+model
combined). -/
theorem format_photo_title_spec :
    format_photo_title chicagoPhoto = "December 25, 2023, Chicago, Acme X100"
    ∧ ∀ photo : IndexedPhoto, format_photo_title photo = title_spec photo := by
  constructor
  · decide
  · intro photo
    unfold format_photo_title title_spec
    cases hl : photo.location with
    | none =>
      cases hmk : photo.camera_make <;> cases hmd : photo.camera_model <;> simp
    | some location =>
      obtain ⟨fa, city, st, co⟩ := location
      cases city <;> cases hmk : photo.camera_make <;>
        cases hmd : photo.camera_model <;> simp

theorem lookupKey_eraseKey {α : Type} (g k : String) (l : List (String × α)) :
    lookupKey g (eraseKey k l) = if g = k then none else lookupKey g l := by
  induction l with
  | nil => simp [eraseKey, lookupKey]
  | cons e es ih =>
    simp only [eraseKey]
    by_cases hgk : g = k
    · subst hgk
      by_cases h1 : e.1 = g <;> simp [h1, lookupKey, ih]
    · by_cases h1 : e.1 = k <;> by_cases h2 : e.1 = g <;>
        simp [h1, h2, lookupKey, ih, hgk] <;> simp_all

theorem lookupKey_insertKey {α : Type} (g k : String) (v : α) (l : List (String × α)) :
    lookupKey g (insertKey k v l) = if g = k then some v else lookupKey g l := by
  simp only [insertKey, lookupKey]
  by_cases h : g = k
  · simp [h]
  · simp [h, fun hk : k = g => h hk.symm, lookupKey_eraseKey]
    intro hk
    exact absurd hk.symm h

theorem lookupKey_eq_none_iff {α : Type} (g : String) (l : List (String × α)) :
    lookupKey g l = none ↔ g ∉ keysOf l := by
  induction l with
  | nil => simp [lookupKey, keysOf]
  | cons e es ih =>
    by_cases h : e.1 = g
    · simp [lookupKey, keysOf, h]
    · have hne : g ≠ e.1 := fun hg => h hg.symm
      simp [lookupKey, keysOf, h, hne, ih]

theorem lookupKey_modifyValue {α : Type} (g k : String) (f : α → α)
    (l : List (String × α)) :
    lookupKey g (modifyValue k f l) =
      if g = k then (lookupKey k l).map f else lookupKey g l := by
  induction l with
  | nil => simp [modifyValue, lookupKey]
  | cons e es ih =>
    simp only [modifyValue]
    by_cases hgk : g = k
    · subst hgk
      by_cases h1 : e.1 = g <;> simp [h1, lookupKey, ih]
    · by_cases h1 : e.1 = k <;> by_cases h2 : e.1 = g <;>
        simp [h1, h2, lookupKey, ih, hgk] <;> simp_all

theorem removeFirst_not_mem (g : String) (l : List String) (h : l.Nodup) :
    g ∉ removeFirst g l := by
  induction l with
  | nil => simp [removeFirst]
  | cons x xs ih =>
    rcases List.nodup_cons.mp h with ⟨hx, hxs⟩
    by_cases hxg : x = g
    · subst hxg
      simpa [removeFirst] using hx
    · simp [removeFirst, hxg]
      exact ⟨fun hgx => hxg hgx.symm, ih hxs⟩

theorem count_removeFirst_ne (a b : String) (l : List String) (h : a ≠ b) :
    (removeFirst b l).count a = l.count a := by
  induction l with
  | nil => simp [removeFirst]
  | cons x xs ih =>
    by_cases hxb : x = b
    · subst hxb
      simp [removeFirst, List.count_cons, h]
    · simp [removeFirst, hxb, List.count_cons, ih]

theorem count_removeFirst_self (b : String) (l : List String) (h : b ∈ l) :
    (removeFirst b l).count b = l.count b - 1 := by
  induction l with
  | nil => cases h
  | cons x xs ih =>
    by_cases hxb : x = b
    · subst hxb
      simp [removeFirst, List.count_cons]
    · rcases List.mem_cons.mp h with hbx | hmem
      · exact absurd hbx.symm hxb
      · have hne : b ≠ x := fun hb => hxb hb.symm
        simp [removeFirst, hxb, List.count_cons, hne, ih hmem]

/-- Concrete index used by witnesses: one photo "p1" and one gallery "g1"
whose member list is ["p1", "p2"]. -/
def ipW : IndexedPhoto :=
  IndexedPhoto.new "p1" "p1.jpg" none ⟨2024, 1, 1, 0, 0, 0⟩ "ck1" "u" 800 600
    "p1/original.jpg" ⟨2024, 1, 1, 0, 0, 0⟩

def galW : Gallery :=
  { id := "g1", name := "G", slug := "g", description := none
    photos := ["p1", "p2"]
    created_at := ⟨2024, 1, 1, 0, 0, 0⟩, updated_at := ⟨2024, 1, 1, 0, 0, 0⟩ }

def idxW : PhotoIndex :=
  { last_updated := ⟨2024, 1, 1, 0, 0, 0⟩
    photos := [("p1", ipW)]
    galleries := [("g1", galW)] }

/-- C4: PhotoIndex::remove_photo cascade-removes the guid from every
gallery's member list (member lists satisfying the documented
no-duplicates invariant), and the gallery-level membership removal used by
the gallery syncer never touches the index's photo map. -/
theorem remove_photo_cascade (idx : PhotoIndex) (g gid : String) (now : DateTime)
    (hnd : ∀ e ∈ idx.galleries, e.2.photos.Nodup) :
    (∀ e ∈ (idx.remove_photo g now).galleries, g ∉ e.2.photos)
    ∧ (idx.gallery_remove_photo gid g now).photos = idx.photos := by
  constructor
  · intro e he
    simp only [PhotoIndex.remove_photo, List.mem_map] at he
    obtain ⟨e0, he0, rfl⟩ := he
    have hnd0 := hnd e0 he0
    by_cases hmem : g ∈ e0.2.photos
    · simp only [Gallery.remove_photo, hmem, if_pos]
      exact removeFirst_not_mem g e0.2.photos hnd0
    · simp [Gallery.remove_photo, hmem]
  · rfl

/-- Witness for C4 at the concrete index `idxW`. -/
theorem remove_photo_cascade_witness :
    (∀ e ∈ (idxW.remove_photo "p1" ⟨2024, 1, 2, 0, 0, 0⟩).galleries,
        "p1" ∉ e.2.photos)
    ∧ (idxW.gallery_remove_photo "g1" "p1" ⟨2024, 1, 2, 0, 0, 0⟩).photos = idxW.photos :=
  remove_photo_cascade idxW "p1" "g1" ⟨2024, 1, 2, 0, 0, 0⟩ (by decide)

/-- C9 counterexample: adding a guid to a gallery's member list through the
index (the mutation the gallery syncer performs via `galleries.get_mut`)
changes the member list but leaves `last_updated` exactly where it was, so
the index timestamp is not strictly newer after this mutation even though
the mutation happens strictly later. -/
theorem gallery_membership_does_not_bump :
    (idxW.gallery_add_photo "g1" "p3" ⟨2024, 1, 2, 0, 0, 0⟩).membersAt "g1"
        ≠ idxW.membersAt "g1"
    ∧ DateTime.before idxW.last_updated ⟨2024, 1, 2, 0, 0, 0⟩
    ∧ ¬ DateTime.before idxW.last_updated
        (idxW.gallery_add_photo "g1" "p3" ⟨2024, 1, 2, 0, 0, 0⟩).last_updated := by
  refine ⟨by decide, by decide, by decide⟩

/-- C9 as amended: the four index-map mutations (add/update photo, remove a
present photo, add/update gallery, remove a present gallery) set
`last_updated` to the mutation instant, hence strictly newer under a
monotone clock; the gallery-membership mutations leave `last_updated`
untouched. -/
theorem index_mutations_bump_last_updated (idx : PhotoIndex) (p : IndexedPhoto)
    (gal : Gallery) (g gid : String) (now : DateTime)
    (h : DateTime.before idx.last_updated now) :
    DateTime.before idx.last_updated (idx.add_or_update_photo p now).last_updated
    ∧ ((idx.get_photo g).isSome →
        DateTime.before idx.last_updated (idx.remove_photo g now).last_updated)
    ∧ DateTime.before idx.last_updated (idx.add_or_update_gallery gal now).last_updated
    ∧ ((idx.get_gallery gid).isSome →
        DateTime.before idx.last_updated (idx.remove_gallery gid now).last_updated)
    ∧ (idx.gallery_add_photo gid g now).last_updated = idx.last_updated
    ∧ (idx.gallery_remove_photo gid g now).last_updated = idx.last_updated := by
  refine ⟨h, ?_, h, ?_, rfl, rfl⟩
  · intro hs
    simp only [PhotoIndex.remove_photo, PhotoIndex.get_photo] at *
    simp [hs, h]
  · intro hs
    simp only [PhotoIndex.remove_gallery, PhotoIndex.get_gallery] at *
    simp [hs, h]

/-- Witness for the amended C9 at the concrete index `idxW`. -/
theorem index_mutations_bump_last_updated_witness :
    DateTime.before idxW.last_updated
        (idxW.add_or_update_photo ipW ⟨2024, 1, 2, 0, 0, 0⟩).last_updated
    ∧ ((idxW.get_photo "p1").isSome →
        DateTime.before idxW.last_updated
          (idxW.remove_photo "p1" ⟨2024, 1, 2, 0, 0, 0⟩).last_updated)
    ∧ DateTime.before idxW.last_updated
        (idxW.add_or_update_gallery galW ⟨2024, 1, 2, 0, 0, 0⟩).last_updated
    ∧ ((idxW.get_gallery "g1").isSome →
        DateTime.before idxW.last_updated
          (idxW.remove_gallery "g1" ⟨2024, 1, 2, 0, 0, 0⟩).last_updated)
    ∧ (idxW.gallery_add_photo "g1" "p1" ⟨2024, 1, 2, 0, 0, 0⟩).last_updated
        = idxW.last_updated
    ∧ (idxW.gallery_remove_photo "g1" "p1" ⟨2024, 1, 2, 0, 0, 0⟩).last_updated
        = idxW.last_updated :=
  index_mutations_bump_last_updated idxW ipW galW "p1" "g1"
    ⟨2024, 1, 2, 0, 0, 0⟩ (by decide)

/-- SyncResult enum from sync.rs: the per-photo outcome of a sync pass. -/
inductive SyncResult where
  | added (guid : String)
  | updated (guid : String)
  | unchanged (guid : String)
  | deleted (guid : String)
  | failed (guid : String) (message : String)
deriving DecidableEq, Repr

/-- Oracles for the external collaborators of one sync pass: whether the
fallible per-item I/O (directory creation, download, bundle write) succeeds
for a guid, whether a deletion's directory removal succeeds, the EXIF
extraction result for a downloaded file (none embeds a failed or empty
extraction), the reverse-geocoding result (none embeds a failure), and the
slug derivation of the external slugify crate. -/
structure SyncEnv where
  downloadOk : String → Bool
  deleteOk : String → Bool
  exif : String → Option ExifMetadata
  geocode : Int → Int → Option Location
  slugOf : String → String

/-- IndexedPhoto produced by a successful run of Syncer::sync_photo_task_v2:
the base record from the remote fields, enriched with EXIF metadata when
extraction succeeds and with a resolved place when the coordinates geocode;
both enrichment failures are non-fatal. -/
def built_photo (env : SyncEnv) (content_dir : String) (photo : Photo)
    (now : DateTime) : IndexedPhoto :=
  let image_path := content_dir ++ "/" ++ photo.guid ++ "/original.jpg"
  let base := IndexedPhoto.new photo.guid photo.filename photo.caption
    photo.created_at photo.checksum photo.url photo.width photo.height
    image_path now
  match env.exif photo.guid with
  | some exif_data =>
    let p := base.update_exif exif_data
    match p.latitude, p.longitude with
    | some lat, some lon =>
      match env.geocode lat lon with
      | some location => p.update_location location
      | none => p
    | _, _ => p
  | none => base

/-- Syncer::sync_photo_task_v2: fatal-per-item when the download-side I/O
fails, otherwise the enriched IndexedPhoto. -/
def sync_photo_task_v2 (env : SyncEnv) (content_dir : String) (photo : Photo)
    (now : DateTime) : Except String IndexedPhoto :=
  if env.downloadOk photo.guid then
    Except.ok (built_photo env content_dir photo now)
  else
    Except.error ("Failed to download photo " ++ photo.guid)

/-- Sequential index-mutation step of process_additions_and_updates: a
successful task determines added-vs-updated by current index membership and
is inserted; a failed task only contributes a Failed outcome. -/
def paau_step (now : DateTime) (acc : List SyncResult × PhotoIndex)
    (tr : String × Except String IndexedPhoto) : List SyncResult × PhotoIndex :=
  match tr.2 with
  | Except.ok indexed_photo =>
    let guid := indexed_photo.guid
    let is_new := (acc.2.get_photo guid).isNone
    (acc.1 ++ [if is_new then SyncResult.added guid else SyncResult.updated guid],
     acc.2.add_or_update_photo indexed_photo now)
  | Except.error e =>
    (acc.1 ++ [SyncResult.failed tr.1 ("Failed to sync photo: " ++ e)], acc.2)

/-- Syncer::process_additions_and_updates: photos whose indexed checksum
matches are reported Unchanged without work; the rest run the per-item task
and are folded into the index sequentially afterwards. -/
def process_additions_and_updates (env : SyncEnv) (content_dir : String)
    (album : Album) (index : PhotoIndex) (now : DateTime) :
    List SyncResult × PhotoIndex :=
  let unchanged_photos :=
    (album.photos.filter
      (fun p => decide (classify_photo index p = PhotoClass.unchanged))).map
      (fun p => SyncResult.unchanged p.guid)
  let photos_to_process :=
    album.photos.filter
      (fun p => !(decide (classify_photo index p = PhotoClass.unchanged)))
  let task_results :=
    photos_to_process.map (fun p => (p.guid, sync_photo_task_v2 env content_dir p now))
  let folded := task_results.foldl (paau_step now) ([], index)
  (unchanged_photos ++ folded.1, folded.2)

/-- Sequential index-mutation step of process_deletions: only a successful
deletion removes the photo from the index. -/
def del_step (now : DateTime) (acc : List SyncResult × PhotoIndex)
    (gr : String × SyncResult) : List SyncResult × PhotoIndex :=
  match gr.2 with
  | SyncResult.deleted _ => (acc.1 ++ [gr.2], acc.2.remove_photo gr.1 now)
  | r => (acc.1 ++ [r], acc.2)

/-- Syncer::process_deletions: each orphaned guid's directory removal runs
as a task; the index is mutated sequentially afterwards, removing exactly
the successfully deleted guids. -/
def process_deletions (env : SyncEnv) (guids_to_delete : List String)
    (index : PhotoIndex) (now : DateTime) : List SyncResult × PhotoIndex :=
  let task_results := guids_to_delete.map (fun g =>
    (g, if env.deleteOk g then SyncResult.deleted g
        else SyncResult.failed g "Failed to delete photo"))
  task_results.foldl (del_step now) ([], index)

/-- Syncer::sync_photos: deletions of orphaned local guids first, then
additions and updates of the remote photos. -/
def sync_photos (env : SyncEnv) (content_dir : String) (album : Album)
    (index : PhotoIndex) (now : DateTime) : List SyncResult × PhotoIndex :=
  let photos_to_delete := orphaned_guids index album
  let dres := process_deletions env photos_to_delete index now
  let sres := process_additions_and_updates env content_dir album dres.2 now
  (dres.1 ++ sres.1, sres.2)

theorem built_photo_guid (env : SyncEnv) (cd : String) (p : Photo) (now : DateTime) :
    (built_photo env cd p now).guid = p.guid := by
  unfold built_photo
  cases env.exif p.guid with
  | none => rfl
  | some e =>
    simp only [IndexedPhoto.update_exif, IndexedPhoto.update_location]
    cases e.latitude with
    | none => cases e.longitude <;> rfl
    | some lat =>
      cases e.longitude with
      | none => rfl
      | some lon =>
        dsimp only
        cases env.geocode lat lon <;> rfl

theorem built_photo_checksum (env : SyncEnv) (cd : String) (p : Photo) (now : DateTime) :
    (built_photo env cd p now).checksum = p.checksum := by
  unfold built_photo
  cases env.exif p.guid with
  | none => rfl
  | some e =>
    simp only [IndexedPhoto.update_exif, IndexedPhoto.update_location]
    cases e.latitude with
    | none => cases e.longitude <;> rfl
    | some lat =>
      cases e.longitude with
      | none => rfl
      | some lon =>
        dsimp only
        cases env.geocode lat lon <;> rfl

theorem get_photo_add_or_update (idx : PhotoIndex) (p : IndexedPhoto)
    (g : String) (now : DateTime) :
    (idx.add_or_update_photo p now).get_photo g
      = if g = p.guid then some p else idx.get_photo g := by
  simp [PhotoIndex.add_or_update_photo, PhotoIndex.get_photo, lookupKey_insertKey]

theorem get_photo_remove_photo (idx : PhotoIndex) (k g : String) (now : DateTime) :
    (idx.remove_photo k now).get_photo g
      = if g = k then none else idx.get_photo g := by
  simp [PhotoIndex.remove_photo, PhotoIndex.get_photo, lookupKey_eraseKey]

theorem del_fold_results (env : SyncEnv) (now : DateTime) (gs : List String)
    (acc : List SyncResult) (idx : PhotoIndex) :
    ((gs.map (fun g => (g, if env.deleteOk g then SyncResult.deleted g
        else SyncResult.failed g "Failed to delete photo"))).foldl
      (del_step now) (acc, idx)).1
    = acc ++ gs.map (fun g => if env.deleteOk g then SyncResult.deleted g
        else SyncResult.failed g "Failed to delete photo") := by
  induction gs generalizing acc idx with
  | nil => simp
  | cons g gs ih =>
    by_cases h : env.deleteOk g <;>
      simp [h, del_step, ih]

theorem del_fold_lookup (env : SyncEnv) (now : DateTime) (gs : List String)
    (acc : List SyncResult) (idx : PhotoIndex) (g : String) :
    (((gs.map (fun x => (x, if env.deleteOk x then SyncResult.deleted x
        else SyncResult.failed x "Failed to delete photo"))).foldl
      (del_step now) (acc, idx)).2).get_photo g
    = if g ∈ gs ∧ env.deleteOk g then none else idx.get_photo g := by
  induction gs generalizing acc idx with
  | nil => simp
  | cons x gs ih =>
    by_cases hx : env.deleteOk x
    · simp only [List.map_cons, List.foldl_cons, del_step, hx, if_pos]
      rw [ih]
      by_cases hg : g = x
      · subst hg
        simp [hx, get_photo_remove_photo]
      · simp only [get_photo_remove_photo, hg, if_neg, List.mem_cons]
        by_cases hmem : g ∈ gs <;> simp [hmem, hg, hx]
    · simp only [List.map_cons, List.foldl_cons, del_step, hx, if_neg]
      rw [ih]
      by_cases hg : g = x
      · subst hg
        simp [hx]
      · simp only [List.mem_cons]
        by_cases hmem : g ∈ gs <;> simp [hmem, hg, hx]

/-- Outcome that process_additions_and_updates records for a processed
photo, expressed against the index as it stood when the mutation pass
began (valid because remote guids are unique within an album). -/
def paau_outcome (env : SyncEnv) (idx : PhotoIndex) (p : Photo) : SyncResult :=
  if env.downloadOk p.guid then
    (if (idx.get_photo p.guid).isNone then SyncResult.added p.guid
     else SyncResult.updated p.guid)
  else
    SyncResult.failed p.guid
      ("Failed to sync photo: " ++ ("Failed to download photo " ++ p.guid))

theorem paau_outcome_add (env : SyncEnv) (idx : PhotoIndex) (b : IndexedPhoto)
    (q : Photo) (now : DateTime) (h : q.guid ≠ b.guid) :
    paau_outcome env (idx.add_or_update_photo b now) q = paau_outcome env idx q := by
  simp [paau_outcome, get_photo_add_or_update, h]

theorem classify_unchanged_iff (idx : PhotoIndex) (p : Photo) :
    classify_photo idx p = PhotoClass.unchanged ↔
      ∃ e, idx.get_photo p.guid = some e ∧ e.checksum = p.checksum := by
  unfold classify_photo
  cases h : idx.get_photo p.guid with
  | none => simp
  | some e => by_cases hc : e.checksum = p.checksum <;> simp [hc]

theorem guid_inj {l : List Photo} (hnd : (l.map Photo.guid).Nodup)
    {p q : Photo} (hp : p ∈ l) (hq : q ∈ l) (h : p.guid = q.guid) : p = q :=
  List.inj_on_of_nodup_map hnd hp hq h

theorem paau_step_ok (env : SyncEnv) (cd : String) (now : DateTime)
    (acc : List SyncResult) (idx : PhotoIndex) (p : Photo)
    (hdl : env.downloadOk p.guid = true) :
    paau_step now (acc, idx) (p.guid, sync_photo_task_v2 env cd p now)
    = (acc ++ [if (idx.get_photo p.guid).isNone then SyncResult.added p.guid
               else SyncResult.updated p.guid],
       idx.add_or_update_photo (built_photo env cd p now) now) := by
  simp [paau_step, sync_photo_task_v2, hdl, built_photo_guid]

theorem paau_step_err (env : SyncEnv) (cd : String) (now : DateTime)
    (acc : List SyncResult) (idx : PhotoIndex) (p : Photo)
    (hdl : env.downloadOk p.guid = false) :
    paau_step now (acc, idx) (p.guid, sync_photo_task_v2 env cd p now)
    = (acc ++ [SyncResult.failed p.guid
        ("Failed to sync photo: " ++ ("Failed to download photo " ++ p.guid))], idx) := by
  simp [paau_step, sync_photo_task_v2, hdl]

theorem paau_fold_results (env : SyncEnv) (cd : String) (now : DateTime)
    (ps : List Photo) (acc : List SyncResult) (idx : PhotoIndex)
    (hnd : (ps.map Photo.guid).Nodup) :
    ((ps.map (fun p => (p.guid, sync_photo_task_v2 env cd p now))).foldl
        (paau_step now) (acc, idx)).1
    = acc ++ ps.map (paau_outcome env idx) := by
  induction ps generalizing acc idx with
  | nil => simp
  | cons p ps ih =>
    have hnd' : (p.guid :: ps.map Photo.guid).Nodup := by simpa using hnd
    have hp : p.guid ∉ ps.map Photo.guid := (List.nodup_cons.mp hnd').1
    have hps : (ps.map Photo.guid).Nodup := (List.nodup_cons.mp hnd').2
    by_cases hdl : env.downloadOk p.guid
    · rw [List.map_cons, List.foldl_cons, paau_step_ok env cd now acc idx p hdl,
        ih _ _ hps]
      have hcong : ps.map (paau_outcome env
          (idx.add_or_update_photo (built_photo env cd p now) now))
          = ps.map (paau_outcome env idx) := by
        refine List.map_congr_left (fun q hq => ?_)
        have hne : q.guid ≠ (built_photo env cd p now).guid := by
          rw [built_photo_guid]
          intro hqp
          exact hp (hqp ▸ List.mem_map_of_mem Photo.guid hq)
        exact paau_outcome_add env idx _ q now hne
      rw [hcong]
      simp [paau_outcome, hdl, List.append_assoc]
    · have hdl' : env.downloadOk p.guid = false := by simpa using hdl
      rw [List.map_cons, List.foldl_cons, paau_step_err env cd now acc idx p hdl',
        ih _ _ hps]
      simp [paau_outcome, hdl', List.append_assoc]

theorem paau_fold_lookup (env : SyncEnv) (cd : String) (now : DateTime)
    (ps : List Photo) (acc : List SyncResult) (idx : PhotoIndex)
    (hnd : (ps.map Photo.guid).Nodup) (g : String) :
    (((ps.map (fun p => (p.guid, sync_photo_task_v2 env cd p now))).foldl
        (paau_step now) (acc, idx)).2).get_photo g
    = match ps.find? (fun p => decide (p.guid = g) && env.downloadOk p.guid) with
      | some p => some (built_photo env cd p now)
      | none => idx.get_photo g := by
  induction ps generalizing acc idx with
  | nil => simp
  | cons p ps ih =>
    have hnd' : (p.guid :: ps.map Photo.guid).Nodup := by simpa using hnd
    have hp : p.guid ∉ ps.map Photo.guid := (List.nodup_cons.mp hnd').1
    have hps : (ps.map Photo.guid).Nodup := (List.nodup_cons.mp hnd').2
    by_cases hdl : env.downloadOk p.guid
    · rw [List.map_cons, List.foldl_cons, paau_step_ok env cd now acc idx p hdl,
        ih _ _ hps]
      by_cases hg : p.guid = g
      · subst hg
        have hfind : ps.find? (fun q => decide (q.guid = p.guid) && env.downloadOk q.guid)
            = none := by
          refine List.find?_eq_none.mpr (fun q hq => ?_)
          have : q.guid ≠ p.guid := by
            intro hqg
            exact hp (hqg ▸ List.mem_map_of_mem Photo.guid hq)
          simp [this]
        rw [hfind]
        simp [List.find?_cons, hdl, get_photo_add_or_update, built_photo_guid]
      · have hpred : (decide (p.guid = g) && env.downloadOk p.guid) = false := by
          simp [hg]
        rw [List.find?_cons, hpred]
        cases hfind : ps.find? (fun q => decide (q.guid = g) && env.downloadOk q.guid) with
        | some q => simp
        | none =>
          have hne : g ≠ (built_photo env cd p now).guid := by
            rw [built_photo_guid]
            exact fun hgp => hg hgp.symm
          simp [get_photo_add_or_update, hne]
    · have hdl' : env.downloadOk p.guid = false := by simpa using hdl
      rw [List.map_cons, List.foldl_cons, paau_step_err env cd now acc idx p hdl',
        ih _ _ hps]
      have hpred : (decide (p.guid = g) && env.downloadOk p.guid) = false := by
        simp [hdl']
      rw [List.find?_cons, hpred]

theorem eraseKey_of_not_mem {α : Type} (k : String) (l : List (String × α))
    (h : k ∉ keysOf l) : eraseKey k l = l := by
  induction l with
  | nil => rfl
  | cons e es ih =>
    simp only [keysOf, List.map_cons, List.mem_cons, not_or] at h
    have hne : e.1 ≠ k := fun he => h.1 he.symm
    simp [eraseKey, hne, ih (by simpa [keysOf] using h.2)]

theorem photo_count_add_fresh (idx : PhotoIndex) (b : IndexedPhoto)
    (now : DateTime) (h : idx.get_photo b.guid = none) :
    (idx.add_or_update_photo b now).photo_count = idx.photo_count + 1 := by
  have hk : b.guid ∉ keysOf idx.photos := (lookupKey_eq_none_iff b.guid idx.photos).mp h
  simp [PhotoIndex.add_or_update_photo, PhotoIndex.photo_count, insertKey,
    eraseKey_of_not_mem b.guid idx.photos hk, Nat.add_comm]

theorem paau_fold_length (env : SyncEnv) (cd : String) (now : DateTime)
    (ps : List Photo) (acc : List SyncResult) (idx : PhotoIndex)
    (hnd : (ps.map Photo.guid).Nodup)
    (hfresh : ∀ p ∈ ps, idx.get_photo p.guid = none) :
    (((ps.map (fun p => (p.guid, sync_photo_task_v2 env cd p now))).foldl
        (paau_step now) (acc, idx)).2).photo_count
    = idx.photo_count + ps.countP (fun p => env.downloadOk p.guid) := by
  induction ps generalizing acc idx with
  | nil => simp
  | cons p ps ih =>
    have hnd' : (p.guid :: ps.map Photo.guid).Nodup := by simpa using hnd
    have hp : p.guid ∉ ps.map Photo.guid := (List.nodup_cons.mp hnd').1
    have hps : (ps.map Photo.guid).Nodup := (List.nodup_cons.mp hnd').2
    by_cases hdl : env.downloadOk p.guid
    · rw [List.map_cons, List.foldl_cons, paau_step_ok env cd now acc idx p hdl]
      have hfresh' : ∀ q ∈ ps,
          (idx.add_or_update_photo (built_photo env cd p now) now).get_photo q.guid
            = none := by
        intro q hq
        rw [get_photo_add_or_update, built_photo_guid]
        have hne : q.guid ≠ p.guid := by
          intro hqp
          exact hp (hqp ▸ List.mem_map_of_mem Photo.guid hq)
        simp [hne]
        exact hfresh q (List.mem_cons_of_mem p hq)
      rw [ih _ _ hps hfresh']
      rw [photo_count_add_fresh idx _ now
        (by rw [built_photo_guid]; exact hfresh p (List.mem_cons_self p ps))]
      simp [List.countP_cons, hdl]
      omega
    · have hdl' : env.downloadOk p.guid = false := by simpa using hdl
      rw [List.map_cons, List.foldl_cons, paau_step_err env cd now acc idx p hdl',
        ih _ _ hps (fun q hq => hfresh q (List.mem_cons_of_mem p hq))]
      simp [List.countP_cons, hdl']

theorem filter_eq_singleton {α : Type} (q : α → Bool) (l : List α) (a : α)
    (ha : a ∈ l) (hq : q a = true) (huniq : ∀ b ∈ l, q b = true → b = a)
    (hnd : l.Nodup) : l.filter q = [a] := by
  induction l with
  | nil => cases ha
  | cons x xs ih =>
    rcases List.nodup_cons.mp hnd with ⟨hx, hxs⟩
    by_cases hxa : x = a
    · subst hxa
      have hnil : xs.filter q = [] := by
        refine List.filter_eq_nil_iff.mpr (fun b hb => ?_)
        intro hqb
        exact hx ((huniq b (List.mem_cons_of_mem x hb) hqb) ▸ hb)
      simp [List.filter_cons, hq, hnil]
    · have hax : a ∈ xs := by
        rcases List.mem_cons.mp ha with h | h
        · exact absurd h.symm hxa
        · exact h
      have hqx : q x = false := by
        by_cases hqx' : q x = true
        · exact absurd (huniq x (List.mem_cons_self x xs) hqx') hxa
        · simpa using hqx'
      simp [List.filter_cons, hqx]
      exact ih hax (fun b hb hqb => huniq b (List.mem_cons_of_mem x hb) hqb) hxs

theorem process_deletions_results (env : SyncEnv) (gs : List String)
    (idx : PhotoIndex) (now : DateTime) :
    (process_deletions env gs idx now).1
    = gs.map (fun g => if env.deleteOk g then SyncResult.deleted g
        else SyncResult.failed g "Failed to delete photo") := by
  unfold process_deletions
  simpa using del_fold_results env now gs [] idx

theorem process_deletions_lookup (env : SyncEnv) (gs : List String)
    (idx : PhotoIndex) (now : DateTime) (g : String) :
    ((process_deletions env gs idx now).2).get_photo g
    = if g ∈ gs ∧ env.deleteOk g then none else idx.get_photo g := by
  unfold process_deletions
  exact del_fold_lookup env now gs [] idx g

theorem filtered_guids_nodup (album : Album) (q : Photo → Bool)
    (hnd : (album.photos.map Photo.guid).Nodup) :
    ((album.photos.filter q).map Photo.guid).Nodup :=
  ((List.filter_sublist (p := q) album.photos).map Photo.guid).nodup hnd

theorem paau_results (env : SyncEnv) (cd : String) (album : Album)
    (idx : PhotoIndex) (now : DateTime)
    (hnd : (album.photos.map Photo.guid).Nodup) :
    (process_additions_and_updates env cd album idx now).1
    = (album.photos.filter
        (fun p => decide (classify_photo idx p = PhotoClass.unchanged))).map
        (fun p => SyncResult.unchanged p.guid)
      ++ (album.photos.filter
        (fun p => !decide (classify_photo idx p = PhotoClass.unchanged))).map
        (paau_outcome env idx) := by
  unfold process_additions_and_updates
  simp only []
  rw [paau_fold_results env cd now _ [] idx (filtered_guids_nodup album _ hnd)]
  simp

theorem paau_lookup (env : SyncEnv) (cd : String) (album : Album)
    (idx : PhotoIndex) (now : DateTime)
    (hnd : (album.photos.map Photo.guid).Nodup) (g : String) :
    ((process_additions_and_updates env cd album idx now).2).get_photo g
    = match (album.photos.filter
          (fun p => !decide (classify_photo idx p = PhotoClass.unchanged))).find?
          (fun p => decide (p.guid = g) && env.downloadOk p.guid) with
      | some p => some (built_photo env cd p now)
      | none => idx.get_photo g := by
  unfold process_additions_and_updates
  simp only []
  exact paau_fold_lookup env cd now _ [] idx (filtered_guids_nodup album _ hnd) g

theorem paau_all_unchanged (env : SyncEnv) (cd : String) (album : Album)
    (idx : PhotoIndex) (now : DateTime)
    (h : ∀ p ∈ album.photos, classify_photo idx p = PhotoClass.unchanged) :
    process_additions_and_updates env cd album idx now
      = (album.photos.map (fun p => SyncResult.unchanged p.guid), idx) := by
  unfold process_additions_and_updates
  have hfil : album.photos.filter
      (fun p => decide (classify_photo idx p = PhotoClass.unchanged)) = album.photos :=
    List.filter_eq_self.mpr (fun p hp => by simp [h p hp])
  have hproc : album.photos.filter
      (fun p => !decide (classify_photo idx p = PhotoClass.unchanged)) = [] :=
    List.filter_eq_nil_iff.mpr (fun p hp => by simp [h p hp])
  simp [hfil, hproc]

theorem process_deletions_nil (env : SyncEnv) (idx : PhotoIndex) (now : DateTime) :
    process_deletions env [] idx now = ([], idx) := by
  simp [process_deletions]

theorem orphaned_guids_eq_nil (index : PhotoIndex) (album : Album)
    (h : ∀ g ∈ keysOf index.photos, g ∈ album.guids) :
    orphaned_guids index album = [] := by
  refine List.filter_eq_nil_iff.mpr (fun g hg => ?_)
  simp [h g hg]

theorem sync_photos_eq (env : SyncEnv) (cd : String) (album : Album)
    (index : PhotoIndex) (now : DateTime) :
    sync_photos env cd album index now
    = ((process_deletions env (orphaned_guids index album) index now).1
        ++ (process_additions_and_updates env cd album
              (process_deletions env (orphaned_guids index album) index now).2 now).1,
       (process_additions_and_updates env cd album
          (process_deletions env (orphaned_guids index album) index now).2 now).2) := rfl

theorem sync_photos_index_state (env : SyncEnv) (cd : String) (album : Album)
    (index : PhotoIndex) (now : DateTime)
    (hnd : (album.photos.map Photo.guid).Nodup)
    (hdl : ∀ p ∈ album.photos, env.downloadOk p.guid = true)
    (hdel : ∀ g, env.deleteOk g = true) :
    (∀ p ∈ album.photos, ∃ ip,
        ((sync_photos env cd album index now).2).get_photo p.guid = some ip
        ∧ ip.checksum = p.checksum)
    ∧ ∀ g, g ∉ album.guids → ((sync_photos env cd album index now).2).get_photo g = none := by
  rw [sync_photos_eq]
  simp only []
  set idxD := (process_deletions env (orphaned_guids index album) index now).2 with hidxD
  have hD : ∀ g, idxD.get_photo g
      = if g ∈ album.guids then index.get_photo g else none := by
    intro g
    rw [hidxD, process_deletions_lookup]
    by_cases hg : g ∈ album.guids
    · have : g ∉ orphaned_guids index album := by
        intro hmem
        unfold orphaned_guids at hmem
        rw [List.mem_filter] at hmem
        simp [hg] at hmem
      simp [this, hg]
    · by_cases hk : g ∈ keysOf index.photos
      · have : g ∈ orphaned_guids index album := by
          unfold orphaned_guids
          rw [List.mem_filter]
          simp [hk, hg]
        simp [this, hdel g, hg]
      · have : index.get_photo g = none := (lookupKey_eq_none_iff g index.photos).mpr hk
        simp [hg, this]
  constructor
  · intro p hp
    have hpg : p.guid ∈ album.guids := List.mem_map_of_mem Photo.guid hp
    have hDg : idxD.get_photo p.guid = index.get_photo p.guid := by
      rw [hD]; simp [hpg]
    rw [paau_lookup env cd album idxD now hnd p.guid]
    by_cases hun : classify_photo idxD p = PhotoClass.unchanged
    · obtain ⟨e, he, hce⟩ := (classify_unchanged_iff idxD p).mp hun
      have hfind : (album.photos.filter
          (fun q => !decide (classify_photo idxD q = PhotoClass.unchanged))).find?
          (fun q => decide (q.guid = p.guid) && env.downloadOk q.guid) = none := by
        refine List.find?_eq_none.mpr (fun q hq => ?_)
        rcases List.mem_filter.mp hq with ⟨hqmem, hqcond⟩
        by_cases hqg : q.guid = p.guid
        · have : q = p := guid_inj hnd hqmem hp hqg
          subst this
          simp [hun] at hqcond
        · simp [hqg]
      rw [hfind]
      exact ⟨e, he, hce⟩
    · have hpf : p ∈ album.photos.filter
          (fun q => !decide (classify_photo idxD q = PhotoClass.unchanged)) := by
        rw [List.mem_filter]
        simp [hp, hun]
      have hsome : ((album.photos.filter
          (fun q => !decide (classify_photo idxD q = PhotoClass.unchanged))).find?
          (fun q => decide (q.guid = p.guid) && env.downloadOk q.guid)).isSome := by
        rw [List.find?_isSome]
        exact ⟨p, hpf, by simp [hdl p hp]⟩
      obtain ⟨q, hq⟩ := Option.isSome_iff_exists.mp hsome
      have hqmem : q ∈ album.photos :=
        (List.mem_filter.mp (List.mem_of_find?_eq_some hq)).1
      have hqpred := List.find?_some hq
      have hqg : q.guid = p.guid := by
        have hand := (Bool.and_eq_true _ _).mp hqpred
        exact of_decide_eq_true hand.1
      have hqp : q = p := guid_inj hnd hqmem hp hqg
      subst hqp
      rw [hq]
      exact ⟨built_photo env cd q now, rfl, by rw [built_photo_checksum]⟩
  · intro g hg
    rw [paau_lookup env cd album idxD now hnd g]
    have hfind : (album.photos.filter
        (fun q => !decide (classify_photo idxD q = PhotoClass.unchanged))).find?
        (fun q => decide (q.guid = g) && env.downloadOk q.guid) = none := by
      refine List.find?_eq_none.mpr (fun q hq => ?_)
      rcases List.mem_filter.mp hq with ⟨hqmem, _⟩
      have : q.guid ≠ g := by
        intro hqg
        exact hg (hqg ▸ List.mem_map_of_mem Photo.guid hqmem)
      simp [this]
    rw [hfind, hD]
    simp [hg]

/-- C2: when a full photostream sync succeeds (every download of the album's
photos and every orphan deletion succeeds), an immediately repeated sync of
the unchanged album produces exclusively Unchanged outcomes — zero Added,
Updated or Deleted — and leaves the index untouched, because the first run
leaves the index with exactly the remote guids and their remote checksums. -/
theorem sync_photos_idempotent (env1 env2 : SyncEnv) (cd1 cd2 : String)
    (album : Album) (index : PhotoIndex) (now1 now2 : DateTime)
    (hnd : (album.photos.map Photo.guid).Nodup)
    (hdl : ∀ p ∈ album.photos, env1.downloadOk p.guid = true)
    (hdel : ∀ g, env1.deleteOk g = true) :
    sync_photos env2 cd2 album (sync_photos env1 cd1 album index now1).2 now2
      = (album.photos.map (fun p => SyncResult.unchanged p.guid),
         (sync_photos env1 cd1 album index now1).2) := by
  obtain ⟨hA, hB⟩ := sync_photos_index_state env1 cd1 album index now1 hnd hdl hdel
  set idx1 := (sync_photos env1 cd1 album index now1).2 with hidx1
  have horph : orphaned_guids idx1 album = [] := by
    refine orphaned_guids_eq_nil idx1 album (fun g hg => ?_)
    by_contra hgn
    exact ((lookupKey_eq_none_iff g idx1.photos).mp (hB g hgn)) hg
  have hall : ∀ p ∈ album.photos, classify_photo idx1 p = PhotoClass.unchanged := by
    intro p hp
    obtain ⟨ip, hip, hc⟩ := hA p hp
    exact (classify_unchanged_iff idx1 p).mpr ⟨ip, hip, hc⟩
  rw [sync_photos_eq, horph, process_deletions_nil]
  simp only []
  rw [paau_all_unchanged env2 cd2 album idx1 now2 hall]
  simp

/-- Concrete album and environment used by the photostream witnesses. -/
def photoW1 : Photo :=
  { guid := "p1", filename := "p1.jpg", caption := none
    created_at := ⟨2024, 1, 1, 0, 0, 0⟩, checksum := "a", url := "u1"
    width := 800, height := 600, mime_type := "image/jpeg" }

def photoW2 : Photo :=
  { guid := "p2", filename := "p2.jpg", caption := none
    created_at := ⟨2024, 1, 1, 0, 0, 0⟩, checksum := "b", url := "u2"
    width := 800, height := 600, mime_type := "image/jpeg" }

def albumW : Album := { name := "A", photos := [photoW1, photoW2] }

def envW : SyncEnv :=
  { downloadOk := fun _ => true, deleteOk := fun _ => true
    exif := fun _ => none, geocode := fun _ _ => none, slugOf := fun s => s }

/-- Witness for C2 at a concrete two-photo album starting from the empty
index. -/
theorem sync_photos_idempotent_witness :
    sync_photos envW "c" albumW
        (sync_photos envW "c" albumW (PhotoIndex.new ⟨2024, 1, 1, 0, 0, 0⟩)
          ⟨2024, 1, 1, 0, 0, 0⟩).2 ⟨2024, 1, 2, 0, 0, 0⟩
      = (albumW.photos.map (fun p => SyncResult.unchanged p.guid),
         (sync_photos envW "c" albumW (PhotoIndex.new ⟨2024, 1, 1, 0, 0, 0⟩)
           ⟨2024, 1, 1, 0, 0, 0⟩).2) :=
  sync_photos_idempotent envW envW "c" "c" albumW
    (PhotoIndex.new ⟨2024, 1, 1, 0, 0, 0⟩) ⟨2024, 1, 1, 0, 0, 0⟩
    ⟨2024, 1, 2, 0, 0, 0⟩ (by decide) (by decide) (fun _ => rfl)

theorem paau_lookup_processed (env : SyncEnv) (cd : String) (album : Album)
    (idx : PhotoIndex) (now : DateTime)
    (hnd : (album.photos.map Photo.guid).Nodup)
    (p : Photo) (hp : p ∈ album.photos)
    (hproc : classify_photo idx p ≠ PhotoClass.unchanged)
    (hdl : env.downloadOk p.guid = true) :
    ((process_additions_and_updates env cd album idx now).2).get_photo p.guid
      = some (built_photo env cd p now) := by
  rw [paau_lookup env cd album idx now hnd p.guid]
  have hpf : p ∈ album.photos.filter
      (fun q => !decide (classify_photo idx q = PhotoClass.unchanged)) := by
    rw [List.mem_filter]
    simp [hp, hproc]
  have hsome : ((album.photos.filter
      (fun q => !decide (classify_photo idx q = PhotoClass.unchanged))).find?
      (fun q => decide (q.guid = p.guid) && env.downloadOk q.guid)).isSome := by
    rw [List.find?_isSome]
    exact ⟨p, hpf, by simp [hdl]⟩
  obtain ⟨q, hq⟩ := Option.isSome_iff_exists.mp hsome
  have hqmem : q ∈ album.photos :=
    (List.mem_filter.mp (List.mem_of_find?_eq_some hq)).1
  have hqpred := List.find?_some hq
  have hqg : q.guid = p.guid := by
    have hand := (Bool.and_eq_true _ _).mp hqpred
    exact of_decide_eq_true hand.1
  have hqp : q = p := guid_inj hnd hqmem hp hqg
  subst hqp
  rw [hq]

/-- C3: a photo present in the index with checksum c1 and in the remote
album with checksum c2 ≠ c1 whose download succeeds is reported Updated
(determined by prior index membership), and afterwards the index entry's
checksum equals the remote checksum c2. -/
theorem sync_photos_checksum_update (env : SyncEnv) (cd : String) (album : Album)
    (index : PhotoIndex) (now : DateTime) (p : Photo) (ip : IndexedPhoto)
    (hnd : (album.photos.map Photo.guid).Nodup)
    (hp : p ∈ album.photos)
    (hidx : index.get_photo p.guid = some ip)
    (hne : ip.checksum ≠ p.checksum)
    (hdl : env.downloadOk p.guid = true) :
    SyncResult.updated p.guid ∈ (sync_photos env cd album index now).1
    ∧ ∃ ip', ((sync_photos env cd album index now).2).get_photo p.guid = some ip'
        ∧ ip'.checksum = p.checksum := by
  rw [sync_photos_eq]
  simp only []
  set idxD := (process_deletions env (orphaned_guids index album) index now).2 with hidxD
  have hpg : p.guid ∈ album.guids := List.mem_map_of_mem Photo.guid hp
  have hnorph : p.guid ∉ orphaned_guids index album := by
    intro hmem
    unfold orphaned_guids at hmem
    rw [List.mem_filter] at hmem
    simp [hpg] at hmem
  have hDg : idxD.get_photo p.guid = some ip := by
    rw [hidxD, process_deletions_lookup]
    simp [hnorph, hidx]
  have hnu : classify_photo idxD p ≠ PhotoClass.unchanged := by
    intro hun
    obtain ⟨e, he, hce⟩ := (classify_unchanged_iff idxD p).mp hun
    rw [hDg] at he
    exact hne (Option.some.inj he ▸ hce)
  constructor
  · have hpf : p ∈ album.photos.filter
        (fun q => !decide (classify_photo idxD q = PhotoClass.unchanged)) := by
      rw [List.mem_filter]
      simp [hp, hnu]
    have houtc : paau_outcome env idxD p = SyncResult.updated p.guid := by
      simp [paau_outcome, hdl, hDg]
    rw [paau_results env cd album idxD now hnd]
    refine List.mem_append_right _ (List.mem_append_right _ ?_)
    rw [← houtc]
    exact List.mem_map_of_mem (paau_outcome env idxD) hpf
  · rw [paau_lookup_processed env cd album idxD now hnd p hp hnu hdl]
    exact ⟨built_photo env cd p now, rfl, built_photo_checksum env cd p now⟩

/-- Stale index entry for the C3 witness: guid "p1" carries checksum "old"
while the remote album carries checksum "a". -/
def ipOld : IndexedPhoto :=
  IndexedPhoto.new "p1" "p1.jpg" none ⟨2024, 1, 1, 0, 0, 0⟩ "old" "u1" 800 600
    "c/p1/original.jpg" ⟨2024, 1, 1, 0, 0, 0⟩

def idxOld : PhotoIndex :=
  { last_updated := ⟨2024, 1, 1, 0, 0, 0⟩
    photos := [("p1", ipOld)]
    galleries := [] }

/-- Witness for C3 at the concrete stale index. -/
theorem sync_photos_checksum_update_witness :
    SyncResult.updated photoW1.guid
        ∈ (sync_photos envW "c" albumW idxOld ⟨2024, 1, 2, 0, 0, 0⟩).1
    ∧ ∃ ip', ((sync_photos envW "c" albumW idxOld ⟨2024, 1, 2, 0, 0, 0⟩).2).get_photo
          photoW1.guid = some ip' ∧ ip'.checksum = photoW1.checksum :=
  sync_photos_checksum_update envW "c" albumW idxOld ⟨2024, 1, 2, 0, 0, 0⟩
    photoW1 ipOld (by decide) (by decide) (by decide) (by decide) (by decide)

/-- Outcome discriminators used in counting statements. -/
def SyncResult.isAdded : SyncResult → Bool
  | SyncResult.added _ => true
  | _ => false

def SyncResult.isFailed : SyncResult → Bool
  | SyncResult.failed _ _ => true
  | _ => false

theorem paau_count (env : SyncEnv) (cd : String) (album : Album)
    (idx : PhotoIndex) (now : DateTime)
    (hnd : (album.photos.map Photo.guid).Nodup)
    (hfresh : ∀ p ∈ album.photos.filter
        (fun q => !decide (classify_photo idx q = PhotoClass.unchanged)),
      idx.get_photo p.guid = none) :
    ((process_additions_and_updates env cd album idx now).2).photo_count
    = idx.photo_count + (album.photos.filter
        (fun q => !decide (classify_photo idx q = PhotoClass.unchanged))).countP
        (fun p => env.downloadOk p.guid) := by
  unfold process_additions_and_updates
  simp only []
  exact paau_fold_length env cd now _ [] idx (filtered_guids_nodup album _ hnd) hfresh

/-- C5: for a batch of new photos where exactly one photo's download fails,
the outcome list contains exactly one Failed tagged with the failing guid
and its reason, the number of Added outcomes is N−1, exactly the N−1
successful photos end up in the index (the failed photo is absent), and the
failure aborts neither the other photos nor the pass. -/
theorem sync_photos_failure_isolation (env : SyncEnv) (cd : String)
    (album : Album) (index : PhotoIndex) (now : DateTime) (bad : Photo)
    (hnd : (album.photos.map Photo.guid).Nodup)
    (hempty : index.photos = [])
    (hbad : bad ∈ album.photos)
    (hfail : env.downloadOk bad.guid = false)
    (hok : ∀ p ∈ album.photos, p.guid ≠ bad.guid → env.downloadOk p.guid = true) :
    (sync_photos env cd album index now).1.filter SyncResult.isFailed
      = [SyncResult.failed bad.guid
          ("Failed to sync photo: " ++ ("Failed to download photo " ++ bad.guid))]
    ∧ (sync_photos env cd album index now).1.countP SyncResult.isAdded
      = album.photos.length - 1
    ∧ ((sync_photos env cd album index now).2).photo_count = album.photos.length - 1
    ∧ ((sync_photos env cd album index now).2).get_photo bad.guid = none
    ∧ ∀ p ∈ album.photos, p.guid ≠ bad.guid →
        ∃ ip, ((sync_photos env cd album index now).2).get_photo p.guid = some ip
          ∧ ip.checksum = p.checksum := by
  have hlistnd : album.photos.Nodup := hnd.of_map
  have hlookup0 : ∀ g, index.get_photo g = none := by
    intro g
    simp [PhotoIndex.get_photo, hempty, lookupKey]
  have horph : orphaned_guids index album = [] := by
    simp [orphaned_guids, hempty, keysOf]
  have hclass : ∀ p ∈ album.photos, classify_photo index p = PhotoClass.added := by
    intro p _
    simp [classify_photo, hlookup0]
  have hproc : album.photos.filter
      (fun q => !decide (classify_photo index q = PhotoClass.unchanged))
      = album.photos :=
    List.filter_eq_self.mpr (fun p hp => by simp [hclass p hp])
  have hfil : album.photos.filter
      (fun q => decide (classify_photo index q = PhotoClass.unchanged)) = [] :=
    List.filter_eq_nil_iff.mpr (fun p hp => by simp [hclass p hp])
  have huniq : ∀ p ∈ album.photos, env.downloadOk p.guid = false → p = bad := by
    intro p hp hdp
    by_contra hpb
    have hgne : p.guid ≠ bad.guid := by
      intro hg
      exact hpb (guid_inj hnd hp hbad hg)
    rw [hok p hp hgne] at hdp
    cases hdp
  have houtc : ∀ p ∈ album.photos, paau_outcome env index p
      = if env.downloadOk p.guid then SyncResult.added p.guid
        else SyncResult.failed p.guid
          ("Failed to sync photo: " ++ ("Failed to download photo " ++ p.guid)) := by
    intro p _
    simp [paau_outcome, hlookup0]
  have hres : (sync_photos env cd album index now).1
      = album.photos.map (paau_outcome env index) := by
    rw [sync_photos_eq]
    simp only []
    rw [horph, process_deletions_nil]
    simp only []
    rw [paau_results env cd album index now hnd, hfil, hproc]
    simp
  have hfailfilter : album.photos.filter
      (fun p => !env.downloadOk p.guid) = [bad] := by
    refine filter_eq_singleton _ album.photos bad hbad (by simp [hfail]) ?_ hlistnd
    intro b hb hqb
    exact huniq b hb (by simpa using hqb)
  refine ⟨?_, ?_, ?_, ?_, ?_⟩
  · rw [hres, List.filter_map]
    have hcongr : album.photos.filter (SyncResult.isFailed ∘ paau_outcome env index)
        = album.photos.filter (fun p => !env.downloadOk p.guid) := by
      refine List.filter_congr (fun p hp => ?_)
      simp only [Function.comp, houtc p hp]
      by_cases hdp : env.downloadOk p.guid <;> simp [hdp, SyncResult.isFailed]
    rw [hcongr, hfailfilter]
    simp [houtc bad hbad, hfail]
  · rw [hres, List.countP_map]
    have hcongr : album.photos.countP (SyncResult.isAdded ∘ paau_outcome env index)
        = album.photos.countP (fun p => env.downloadOk p.guid) := by
      refine List.countP_congr (fun p hp => ?_)
      simp only [Function.comp, houtc p hp]
      by_cases hdp : env.downloadOk p.guid <;> simp [hdp, SyncResult.isAdded]
    rw [hcongr]
    have hlen := List.length_eq_countP_add_countP
      (l := album.photos) (fun p => env.downloadOk p.guid)
    have hbadcount : album.photos.countP (fun p => !env.downloadOk p.guid) = 1 := by
      rw [List.countP_eq_length_filter, hfailfilter]
      rfl
    have hbadcount' : album.photos.countP
        (fun p => decide (¬env.downloadOk p.guid = true)) = 1 := by
      rw [← hbadcount]
      refine List.countP_congr (fun p _ => ?_)
      by_cases hdp : env.downloadOk p.guid <;> simp [hdp]
    omega
  · rw [sync_photos_eq]
    simp only []
    rw [horph, process_deletions_nil]
    simp only []
    rw [paau_count env cd album index now hnd (fun p _ => hlookup0 p.guid), hproc]
    have hcount0 : index.photo_count = 0 := by
      simp [PhotoIndex.photo_count, hempty]
    have hlen := List.length_eq_countP_add_countP
      (l := album.photos) (fun p => env.downloadOk p.guid)
    have hbadcount : album.photos.countP (fun p => !env.downloadOk p.guid) = 1 := by
      rw [List.countP_eq_length_filter, hfailfilter]
      rfl
    have hbadcount' : album.photos.countP
        (fun p => decide (¬env.downloadOk p.guid = true)) = 1 := by
      rw [← hbadcount]
      refine List.countP_congr (fun p _ => ?_)
      by_cases hdp : env.downloadOk p.guid <;> simp [hdp]
    omega
  · rw [sync_photos_eq]
    simp only []
    rw [horph, process_deletions_nil]
    simp only []
    rw [paau_lookup env cd album index now hnd bad.guid]
    have hfind : (album.photos.filter
        (fun q => !decide (classify_photo index q = PhotoClass.unchanged))).find?
        (fun q => decide (q.guid = bad.guid) && env.downloadOk q.guid) = none := by
      refine List.find?_eq_none.mpr (fun q hq => ?_)
      rcases List.mem_filter.mp hq with ⟨hqmem, _⟩
      by_cases hqg : q.guid = bad.guid
      · have : q = bad := guid_inj hnd hqmem hbad hqg
        subst this
        simp [hfail]
      · simp [hqg]
    rw [hfind]
    exact hlookup0 bad.guid
  · intro p hp hpg
    rw [sync_photos_eq]
    simp only []
    rw [horph, process_deletions_nil]
    simp only []
    rw [paau_lookup_processed env cd album index now hnd p hp
      (by simp [hclass p hp]) (hok p hp hpg)]
    exact ⟨built_photo env cd p now, rfl, built_photo_checksum env cd p now⟩

/-- Environment for the C5 witness: only the download of "p2" fails. -/
def envC5 : SyncEnv :=
  { downloadOk := fun g => !(g == "p2"), deleteOk := fun _ => true
    exif := fun _ => none, geocode := fun _ _ => none, slugOf := fun s => s }

/-- Witness for C5 at the concrete two-photo album with "p2" failing. -/
theorem sync_photos_failure_isolation_witness :
    (sync_photos envC5 "c" albumW (PhotoIndex.new ⟨2024, 1, 1, 0, 0, 0⟩)
        ⟨2024, 1, 2, 0, 0, 0⟩).1.filter SyncResult.isFailed
      = [SyncResult.failed photoW2.guid
          ("Failed to sync photo: " ++ ("Failed to download photo " ++ photoW2.guid))]
    ∧ (sync_photos envC5 "c" albumW (PhotoIndex.new ⟨2024, 1, 1, 0, 0, 0⟩)
        ⟨2024, 1, 2, 0, 0, 0⟩).1.countP SyncResult.isAdded
      = albumW.photos.length - 1
    ∧ ((sync_photos envC5 "c" albumW (PhotoIndex.new ⟨2024, 1, 1, 0, 0, 0⟩)
        ⟨2024, 1, 2, 0, 0, 0⟩).2).photo_count = albumW.photos.length - 1
    ∧ ((sync_photos envC5 "c" albumW (PhotoIndex.new ⟨2024, 1, 1, 0, 0, 0⟩)
        ⟨2024, 1, 2, 0, 0, 0⟩).2).get_photo photoW2.guid = none
    ∧ ∀ p ∈ albumW.photos, p.guid ≠ photoW2.guid →
        ∃ ip, ((sync_photos envC5 "c" albumW (PhotoIndex.new ⟨2024, 1, 1, 0, 0, 0⟩)
            ⟨2024, 1, 2, 0, 0, 0⟩).2).get_photo p.guid = some ip
          ∧ ip.checksum = p.checksum :=
  sync_photos_failure_isolation envC5 "c" albumW
    (PhotoIndex.new ⟨2024, 1, 1, 0, 0, 0⟩) ⟨2024, 1, 2, 0, 0, 0⟩ photoW2
    (by decide) rfl (by decide) (by decide) (by decide)

/-- Configuration of GallerySyncer from gallery.rs (the fields the embedded
behaviour depends on). -/
structure GalleryCfg where
  content_dir : String
  gallery_name : String
  gallery_description : Option String
  index_path : String

/-- Effective gallery display name: the album name when the configured name
is the default "Gallery". -/
def effective_gallery_name (cfg : GalleryCfg) (album : Album) : String :=
  if cfg.gallery_name = "Gallery" then album.name else cfg.gallery_name

/-- GallerySyncer::get_or_create_gallery_id: reuse the id of the first
gallery with the effective name, else mint "gallery_" followed by a fresh
uuid (`fresh` embeds the `Uuid::new_v4()` call). -/
def get_or_create_gallery_id (cfg : GalleryCfg) (album : Album)
    (index : PhotoIndex) (fresh : String) : String :=
  match index.galleries.find?
      (fun e => decide (e.2.name = effective_gallery_name cfg album)) with
  | some e => e.2.id
  | none => "gallery_" ++ fresh

/-- On-disk path of a gallery photo: `<dir>/<guid>.jpg`. -/
def galleryPath (dir g : String) : String := dir ++ "/" ++ g ++ ".jpg"

/-- File-set insertion: writing a file creates it if absent (overwriting
leaves the set unchanged). -/
def insertFile (f : String) (fs : List String) : List String :=
  if f ∈ fs then fs else fs ++ [f]

/-- IndexedPhoto produced by a successful GallerySyncer::process_photo:
gallery.rs duplicates the enrichment pipeline of sync.rs with the shared
gallery directory path. -/
def process_photo_built (env : SyncEnv) (photo : Photo) (photo_path : String)
    (now : DateTime) : IndexedPhoto :=
  let base := IndexedPhoto.new photo.guid photo.filename photo.caption
    photo.created_at photo.checksum photo.url photo.width photo.height
    photo_path now
  match env.exif photo.guid with
  | some exif_data =>
    let p := base.update_exif exif_data
    match p.latitude, p.longitude with
    | some lat, some lon =>
      match env.geocode lat lon with
      | some location => p.update_location location
      | none => p
    | _, _ => p
  | none => base

/-- State threaded through the gallery sync loops: accumulated outcomes,
the index, and the files of the gallery directory. -/
structure GalleryState where
  results : List SyncResult
  index : PhotoIndex
  fs : List String

/-- Body of the add and update loops of GallerySyncer::sync_gallery (the
two loops are identical except for the success constructor and failure
message prefix): a successful process_photo writes the file, upserts the
photo into the index and adds gallery membership; a failure only records a
Failed outcome. -/
def gallery_proc_step (env : SyncEnv) (dir gallery_id : String)
    (now : DateTime) (mk : String → SyncResult) (failPre : String)
    (st : GalleryState) (p : Photo) : GalleryState :=
  if env.downloadOk p.guid then
    let photo_path := galleryPath dir p.guid
    let fs' := insertFile photo_path st.fs
    let ip := process_photo_built env p photo_path now
    let idx' := (st.index.add_or_update_photo ip now).gallery_add_photo
      gallery_id p.guid now
    { results := st.results ++ [mk p.guid], index := idx', fs := fs' }
  else
    { results := st.results ++ [SyncResult.failed p.guid
        (failPre ++ ("Failed to download photo " ++ p.guid))],
      index := st.index, fs := st.fs }

/-- Body of the removal loop of GallerySyncer::sync_gallery: drop gallery
membership (never the index entry), delete the on-disk file when present,
and record a Deleted outcome. -/
def gallery_rm_step (dir gallery_id : String) (now : DateTime)
    (st : GalleryState) (g : String) : GalleryState :=
  let idx' := st.index.gallery_remove_photo gallery_id g now
  let photo_path := galleryPath dir g
  let fs' := if photo_path ∈ st.fs then st.fs.erase photo_path else st.fs
  { results := st.results ++ [SyncResult.deleted g], index := idx', fs := fs' }

/-- GallerySyncer::sync_gallery: resolve or create the gallery, classify
album photos against the index and the gallery member snapshot, run the
add, update and removal loops, report unchanged photos, and write the
gallery bundle's index.md. The final `PhotoIndex::save` to disk is
persistence I/O outside this embedding. -/
def sync_gallery (env : SyncEnv) (cfg : GalleryCfg) (fresh : String)
    (album : Album) (index : PhotoIndex) (fs : List String) (now : DateTime) :
    List SyncResult × PhotoIndex × List String :=
  let gallery_name := effective_gallery_name cfg album
  let gallery_id := get_or_create_gallery_id cfg album index fresh
  let indexAndGallery :=
    match index.get_gallery gallery_id with
    | some g => (index, g)
    | none =>
      let g := Gallery.new gallery_id gallery_name (env.slugOf gallery_name)
        cfg.gallery_description now
      (index.add_or_update_gallery g now, g)
  let index1 := indexAndGallery.1
  let gallery := indexAndGallery.2
  let existing_photos := gallery.photos
  let unchanged := (album.photos.filter (fun p =>
      match index1.get_photo p.guid with
      | some ip => decide (ip.checksum = p.checksum)
          && existing_photos.contains p.guid
      | none => false)).map (fun p => SyncResult.unchanged p.guid)
  let to_add := album.photos.filter (fun p => (index1.get_photo p.guid).isNone)
  let to_update := album.photos.filter (fun p =>
      match index1.get_photo p.guid with
      | some ip => !(decide (ip.checksum = p.checksum)
          && existing_photos.contains p.guid)
      | none => false)
  let to_remove := existing_photos.filter (fun g => decide (g ∉ album.guids))
  let st0 : GalleryState := { results := [], index := index1, fs := fs }
  let st1 := to_add.foldl (gallery_proc_step env cfg.content_dir gallery_id now
    SyncResult.added "Failed to process photo: ") st0
  let st2 := to_update.foldl (gallery_proc_step env cfg.content_dir gallery_id now
    SyncResult.updated "Failed to update photo: ") st1
  let st3 := to_remove.foldl (gallery_rm_step cfg.content_dir gallery_id now) st2
  let results := st3.results ++ unchanged
  let fs_final := insertFile (cfg.content_dir ++ "/" ++ "index.md") st3.fs
  (results, st3.index, fs_final)

theorem process_photo_built_guid (env : SyncEnv) (p : Photo) (path : String)
    (now : DateTime) : (process_photo_built env p path now).guid = p.guid := by
  unfold process_photo_built
  cases env.exif p.guid with
  | none => rfl
  | some e =>
    simp only [IndexedPhoto.update_exif, IndexedPhoto.update_location]
    cases e.latitude with
    | none => cases e.longitude <;> rfl
    | some lat =>
      cases e.longitude with
      | none => rfl
      | some lon =>
        dsimp only
        cases env.geocode lat lon <;> rfl

theorem process_photo_built_checksum (env : SyncEnv) (p : Photo) (path : String)
    (now : DateTime) : (process_photo_built env p path now).checksum = p.checksum := by
  unfold process_photo_built
  cases env.exif p.guid with
  | none => rfl
  | some e =>
    simp only [IndexedPhoto.update_exif, IndexedPhoto.update_location]
    cases e.latitude with
    | none => cases e.longitude <;> rfl
    | some lat =>
      cases e.longitude with
      | none => rfl
      | some lon =>
        dsimp only
        cases env.geocode lat lon <;> rfl

theorem keysOf_modifyValue {α : Type} (k : String) (f : α → α)
    (l : List (String × α)) : keysOf (modifyValue k f l) = keysOf l := by
  induction l with
  | nil => rfl
  | cons e es ih =>
    by_cases h : e.1 = k <;> simp [modifyValue, keysOf, h] <;>
      simpa [keysOf] using ih

theorem get_photo_gallery_add (idx : PhotoIndex) (gid q g : String)
    (now : DateTime) :
    (idx.gallery_add_photo gid q now).get_photo g = idx.get_photo g := rfl

theorem get_photo_gallery_remove (idx : PhotoIndex) (gid q g : String)
    (now : DateTime) :
    (idx.gallery_remove_photo gid q now).get_photo g = idx.get_photo g := rfl

theorem membersAt_add_or_update_photo (idx : PhotoIndex) (p : IndexedPhoto)
    (gid : String) (now : DateTime) :
    (idx.add_or_update_photo p now).membersAt gid = idx.membersAt gid := rfl

theorem get_gallery_gallery_add_other (idx : PhotoIndex) (gid q gid' : String)
    (now : DateTime) (h : gid' ≠ gid) :
    (idx.gallery_add_photo gid q now).get_gallery gid' = idx.get_gallery gid' := by
  simp [PhotoIndex.gallery_add_photo, PhotoIndex.get_gallery,
    lookupKey_modifyValue, h]

theorem get_gallery_gallery_remove_other (idx : PhotoIndex) (gid q gid' : String)
    (now : DateTime) (h : gid' ≠ gid) :
    (idx.gallery_remove_photo gid q now).get_gallery gid'
      = idx.get_gallery gid' := by
  simp [PhotoIndex.gallery_remove_photo, PhotoIndex.get_gallery,
    lookupKey_modifyValue, h]

theorem get_gallery_add_or_update_photo (idx : PhotoIndex) (p : IndexedPhoto)
    (gid : String) (now : DateTime) :
    (idx.add_or_update_photo p now).get_gallery gid = idx.get_gallery gid := rfl

theorem membersAt_gallery_add_self (idx : PhotoIndex) (gid q : String)
    (now : DateTime) :
    (idx.gallery_add_photo gid q now).membersAt gid
      = match idx.get_gallery gid with
        | some gal => (gal.add_photo q now).photos
        | none => [] := by
  simp only [PhotoIndex.membersAt, PhotoIndex.gallery_add_photo,
    PhotoIndex.get_gallery, lookupKey_modifyValue, if_pos rfl]
  cases lookupKey gid idx.galleries <;> rfl

theorem membersAt_gallery_remove_self (idx : PhotoIndex) (gid q : String)
    (now : DateTime) :
    (idx.gallery_remove_photo gid q now).membersAt gid
      = match idx.get_gallery gid with
        | some gal => (gal.remove_photo q now).photos
        | none => [] := by
  simp only [PhotoIndex.membersAt, PhotoIndex.gallery_remove_photo,
    PhotoIndex.get_gallery, lookupKey_modifyValue, if_pos rfl]
  cases lookupKey gid idx.galleries <;> rfl

theorem count_membersAt_gallery_add (idx : PhotoIndex) (gid q gid' g : String)
    (now : DateTime) (h : g ≠ q) :
    ((idx.gallery_add_photo gid q now).membersAt gid').count g
      = (idx.membersAt gid').count g := by
  by_cases hgid : gid' = gid
  · subst hgid
    rw [membersAt_gallery_add_self]
    cases hgal : idx.get_gallery gid' with
    | none => simp [PhotoIndex.membersAt, PhotoIndex.get_gallery] at hgal ⊢; simp [hgal]
    | some gal =>
      simp only [PhotoIndex.membersAt, hgal]
      unfold Gallery.add_photo
      by_cases hmem : q ∈ gal.photos
      · simp [hmem]
      · simp [hmem, List.count_append, h]
  · rw [show (idx.gallery_add_photo gid q now).membersAt gid'
        = idx.membersAt gid' from by
      simp [PhotoIndex.membersAt, get_gallery_gallery_add_other idx gid q gid' now hgid]]

theorem count_membersAt_gallery_remove_ne (idx : PhotoIndex) (gid q gid' g : String)
    (now : DateTime) (h : g ≠ q) :
    ((idx.gallery_remove_photo gid q now).membersAt gid').count g
      = (idx.membersAt gid').count g := by
  by_cases hgid : gid' = gid
  · subst hgid
    rw [membersAt_gallery_remove_self]
    cases hgal : idx.get_gallery gid' with
    | none => simp [PhotoIndex.membersAt, hgal]
    | some gal =>
      simp only [PhotoIndex.membersAt, hgal]
      unfold Gallery.remove_photo
      by_cases hmem : q ∈ gal.photos
      · simp [hmem, count_removeFirst_ne g q gal.photos h]
      · simp [hmem]
  · rw [show (idx.gallery_remove_photo gid q now).membersAt gid'
        = idx.membersAt gid' from by
      simp [PhotoIndex.membersAt, get_gallery_gallery_remove_other idx gid q gid' now hgid]]

theorem count_membersAt_gallery_remove_self (idx : PhotoIndex) (gid g : String)
    (now : DateTime) (h : (idx.membersAt gid).count g ≤ 1) :
    ((idx.gallery_remove_photo gid g now).membersAt gid).count g = 0 := by
  rw [membersAt_gallery_remove_self]
  cases hgal : idx.get_gallery gid with
  | none => simp
  | some gal =>
    have hm : idx.membersAt gid = gal.photos := by
      simp [PhotoIndex.membersAt, hgal]
    rw [hm] at h
    unfold Gallery.remove_photo
    by_cases hmem : g ∈ gal.photos
    · have h1 : 1 ≤ gal.photos.count g := List.one_le_count_iff.mpr hmem
      simp only [hmem, if_pos]
      rw [count_removeFirst_self g gal.photos hmem]
      omega
    · simp only [hmem, if_neg]
      simp [List.count_eq_zero]
      exact hmem

theorem mem_membersAt_gallery_add_self (idx : PhotoIndex) (gid q : String)
    (now : DateTime) (h : gid ∈ keysOf idx.galleries) :
    q ∈ (idx.gallery_add_photo gid q now).membersAt gid := by
  rw [membersAt_gallery_add_self]
  cases hgal : idx.get_gallery gid with
  | none =>
    exact absurd ((lookupKey_eq_none_iff gid idx.galleries).mp hgal) (by simpa using h)
  | some gal =>
    unfold Gallery.add_photo
    by_cases hmem : q ∈ gal.photos <;> simp [hmem]

theorem mem_membersAt_gallery_add_mono (idx : PhotoIndex) (gid q gid' g : String)
    (now : DateTime) (h : g ∈ idx.membersAt gid') :
    g ∈ (idx.gallery_add_photo gid q now).membersAt gid' := by
  by_cases hgid : gid' = gid
  · subst hgid
    rw [membersAt_gallery_add_self]
    cases hgal : idx.get_gallery gid' with
    | none => simp [PhotoIndex.membersAt, hgal] at h
    | some gal =>
      have hm : idx.membersAt gid' = gal.photos := by
        simp [PhotoIndex.membersAt, hgal]
      rw [hm] at h
      unfold Gallery.add_photo
      by_cases hmem : q ∈ gal.photos <;> simp [hmem, h]
  · rw [show (idx.gallery_add_photo gid q now).membersAt gid'
        = idx.membersAt gid' from by
      simp [PhotoIndex.membersAt, get_gallery_gallery_add_other idx gid q gid' now hgid]]
    exact h

theorem keysOf_galleries_gallery_add (idx : PhotoIndex) (gid q : String)
    (now : DateTime) :
    keysOf (idx.gallery_add_photo gid q now).galleries = keysOf idx.galleries :=
  keysOf_modifyValue gid _ idx.galleries

theorem gproc_fold_results (env : SyncEnv) (dir gid : String) (now : DateTime)
    (mk : String → SyncResult) (pre : String) (ps : List Photo)
    (st : GalleryState) :
    (ps.foldl (gallery_proc_step env dir gid now mk pre) st).results
    = st.results ++ ps.map (fun p =>
        if env.downloadOk p.guid then mk p.guid
        else SyncResult.failed p.guid
          (pre ++ ("Failed to download photo " ++ p.guid))) := by
  induction ps generalizing st with
  | nil => simp
  | cons p ps ih =>
    by_cases hdl : env.downloadOk p.guid <;>
      simp [gallery_proc_step, hdl, ih, List.append_assoc]

theorem gproc_fold_photo_frame (env : SyncEnv) (dir gid : String)
    (now : DateTime) (mk : String → SyncResult) (pre : String)
    (ps : List Photo) (st : GalleryState) (g : String)
    (h : ∀ p ∈ ps, p.guid ≠ g) :
    ((ps.foldl (gallery_proc_step env dir gid now mk pre) st).index).get_photo g
      = st.index.get_photo g := by
  induction ps generalizing st with
  | nil => rfl
  | cons p ps ih =>
    rw [List.foldl_cons, ih _ (fun q hq => h q (List.mem_cons_of_mem p hq))]
    unfold gallery_proc_step
    by_cases hdl : env.downloadOk p.guid
    · simp only [hdl, if_pos]
      rw [get_photo_gallery_add, get_photo_add_or_update, process_photo_built_guid]
      have hne : g ≠ p.guid := fun hg => h p (List.mem_cons_self p ps) hg.symm
      simp [hne]
    · simp [hdl]

theorem gproc_fold_photo_found (env : SyncEnv) (dir gid : String)
    (now : DateTime) (mk : String → SyncResult) (pre : String)
    (ps : List Photo) (st : GalleryState)
    (hnd : (ps.map Photo.guid).Nodup) (p : Photo) (hp : p ∈ ps)
    (hdl : env.downloadOk p.guid = true) :
    ((ps.foldl (gallery_proc_step env dir gid now mk pre) st).index).get_photo p.guid
      = some (process_photo_built env p (galleryPath dir p.guid) now) := by
  induction ps generalizing st with
  | nil => cases hp
  | cons q qs ih =>
    have hnd' : (q.guid :: qs.map Photo.guid).Nodup := by simpa using hnd
    have hq : q.guid ∉ qs.map Photo.guid := (List.nodup_cons.mp hnd').1
    have hqs : (qs.map Photo.guid).Nodup := (List.nodup_cons.mp hnd').2
    rcases List.mem_cons.mp hp with hpq | hpqs
    · subst hpq
      rw [List.foldl_cons]
      rw [gproc_fold_photo_frame env dir gid now mk pre qs _ p.guid
        (fun r hr => fun hrg => hq (hrg ▸ List.mem_map_of_mem Photo.guid hr))]
      unfold gallery_proc_step
      simp only [hdl, if_pos]
      rw [get_photo_gallery_add, get_photo_add_or_update, process_photo_built_guid]
      simp
    · rw [List.foldl_cons]
      exact ih _ hqs hpqs

theorem gproc_fold_members_count (env : SyncEnv) (dir gid : String)
    (now : DateTime) (mk : String → SyncResult) (pre : String)
    (ps : List Photo) (st : GalleryState) (gid' g : String)
    (h : g ∉ ps.map Photo.guid) :
    (((ps.foldl (gallery_proc_step env dir gid now mk pre) st).index).membersAt
        gid').count g
      = (st.index.membersAt gid').count g := by
  induction ps generalizing st with
  | nil => rfl
  | cons p ps ih =>
    simp only [List.map_cons, List.mem_cons, not_or] at h
    rw [List.foldl_cons, ih _ (by simpa using h.2)]
    unfold gallery_proc_step
    by_cases hdl : env.downloadOk p.guid
    · simp only [hdl, if_pos]
      rw [count_membersAt_gallery_add _ gid p.guid gid' g now h.1]
      rfl
    · simp [hdl]

theorem gproc_fold_members_mono (env : SyncEnv) (dir gid : String)
    (now : DateTime) (mk : String → SyncResult) (pre : String)
    (ps : List Photo) (st : GalleryState) (gid' g : String)
    (h : g ∈ st.index.membersAt gid') :
    g ∈ ((ps.foldl (gallery_proc_step env dir gid now mk pre) st).index).membersAt
        gid' := by
  induction ps generalizing st with
  | nil => exact h
  | cons p ps ih =>
    rw [List.foldl_cons]
    refine ih _ ?_
    unfold gallery_proc_step
    by_cases hdl : env.downloadOk p.guid
    · simp only [hdl, if_pos]
      exact mem_membersAt_gallery_add_mono _ gid p.guid gid' g now h
    · simpa [hdl] using h

theorem gproc_fold_keys (env : SyncEnv) (dir gid : String) (now : DateTime)
    (mk : String → SyncResult) (pre : String) (ps : List Photo)
    (st : GalleryState) :
    keysOf ((ps.foldl (gallery_proc_step env dir gid now mk pre) st).index).galleries
      = keysOf st.index.galleries := by
  induction ps generalizing st with
  | nil => rfl
  | cons p ps ih =>
    rw [List.foldl_cons, ih]
    unfold gallery_proc_step
    by_cases hdl : env.downloadOk p.guid
    · simp only [hdl, if_pos]
      exact keysOf_galleries_gallery_add _ gid p.guid now
    · simp [hdl]

theorem gproc_fold_members_in (env : SyncEnv) (dir gid : String)
    (now : DateTime) (mk : String → SyncResult) (pre : String)
    (ps : List Photo) (st : GalleryState) (p : Photo) (hp : p ∈ ps)
    (hdl : env.downloadOk p.guid = true)
    (hkey : gid ∈ keysOf st.index.galleries) :
    p.guid ∈ ((ps.foldl (gallery_proc_step env dir gid now mk pre)
        st).index).membersAt gid := by
  induction ps generalizing st with
  | nil => cases hp
  | cons q qs ih =>
    rw [List.foldl_cons]
    rcases List.mem_cons.mp hp with hpq | hpqs
    · subst hpq
      refine gproc_fold_members_mono env dir gid now mk pre qs _ gid p.guid ?_
      unfold gallery_proc_step
      simp only [hdl, if_pos]
      exact mem_membersAt_gallery_add_self _ gid p.guid now hkey
    · refine ih _ hpqs ?_
      unfold gallery_proc_step
      by_cases hq : env.downloadOk q.guid
      · simp only [hq, if_pos]
        rw [show keysOf ((st.index.add_or_update_photo
              (process_photo_built env q (galleryPath dir q.guid) now)
              now).gallery_add_photo gid q.guid now).galleries
            = keysOf st.index.galleries from
          keysOf_galleries_gallery_add _ gid q.guid now]
        exact hkey
      · simpa [hq] using hkey

theorem gproc_fold_gallery_other (env : SyncEnv) (dir gid : String)
    (now : DateTime) (mk : String → SyncResult) (pre : String)
    (ps : List Photo) (st : GalleryState) (gid' : String) (h : gid' ≠ gid) :
    ((ps.foldl (gallery_proc_step env dir gid now mk pre) st).index).get_gallery
        gid'
      = st.index.get_gallery gid' := by
  induction ps generalizing st with
  | nil => rfl
  | cons p ps ih =>
    rw [List.foldl_cons, ih]
    unfold gallery_proc_step
    by_cases hdl : env.downloadOk p.guid
    · simp only [hdl, if_pos]
      rw [get_gallery_gallery_add_other _ gid p.guid gid' now h]
      rfl
    · simp [hdl]

theorem gproc_fold_fs_mem (env : SyncEnv) (dir gid : String) (now : DateTime)
    (mk : String → SyncResult) (pre : String) (ps : List Photo)
    (st : GalleryState) (f : String) :
    (f ∈ (ps.foldl (gallery_proc_step env dir gid now mk pre) st).fs
      ↔ f ∈ st.fs ∨ ∃ p ∈ ps, env.downloadOk p.guid = true
          ∧ f = galleryPath dir p.guid) := by
  induction ps generalizing st with
  | nil => simp
  | cons p ps ih =>
    rw [List.foldl_cons, ih]
    unfold gallery_proc_step
    by_cases hdl : env.downloadOk p.guid
    · simp only [hdl, if_pos]
      constructor
      · rintro (hf | hf)
        · simp only [insertFile] at hf
          by_cases hmem : galleryPath dir p.guid ∈ st.fs
          · rw [if_pos hmem] at hf
            exact Or.inl hf
          · rw [if_neg hmem] at hf
            rcases List.mem_append.mp hf with hf | hf
            · exact Or.inl hf
            · refine Or.inr ⟨p, List.mem_cons_self p ps, hdl, ?_⟩
              simpa using hf
        · obtain ⟨q, hq, hqdl, hqf⟩ := hf
          exact Or.inr ⟨q, List.mem_cons_of_mem p hq, hqdl, hqf⟩
      · rintro (hf | ⟨q, hq, hqdl, hqf⟩)
        · refine Or.inl ?_
          simp only [insertFile]
          by_cases hmem : galleryPath dir p.guid ∈ st.fs
          · rwa [if_pos hmem]
          · rw [if_neg hmem]
            exact List.mem_append_left _ hf
        · rcases List.mem_cons.mp hq with hqp | hqps
          · subst hqp
            refine Or.inl ?_
            simp only [insertFile]
            by_cases hmem : galleryPath dir q.guid ∈ st.fs
            · rw [if_pos hmem]
              exact hqf ▸ hmem
            · rw [if_neg hmem]
              exact List.mem_append_right _ (by simp [hqf])
          · exact Or.inr ⟨q, hqps, hqdl, hqf⟩
    · have hdl' : env.downloadOk p.guid = false := by simpa using hdl
      simp only [hdl', if_neg, Bool.false_eq_true, not_false_eq_true]
      constructor
      · rintro (hf | ⟨q, hq, hqdl, hqf⟩)
        · exact Or.inl hf
        · exact Or.inr ⟨q, List.mem_cons_of_mem p hq, hqdl, hqf⟩
      · rintro (hf | ⟨q, hq, hqdl, hqf⟩)
        · exact Or.inl hf
        · rcases List.mem_cons.mp hq with hqp | hqps
          · subst hqp
            rw [hqdl] at hdl'
            cases hdl'
          · exact Or.inr ⟨q, hqps, hqdl, hqf⟩

theorem insertFile_nodup (f : String) (fs : List String) (h : fs.Nodup) :
    (insertFile f fs).Nodup := by
  unfold insertFile
  by_cases hmem : f ∈ fs
  · simpa [hmem]
  · simp only [hmem, if_neg]
    simpa [List.nodup_append, hmem] using h

theorem gproc_fold_fs_nodup (env : SyncEnv) (dir gid : String) (now : DateTime)
    (mk : String → SyncResult) (pre : String) (ps : List Photo)
    (st : GalleryState) (h : st.fs.Nodup) :
    ((ps.foldl (gallery_proc_step env dir gid now mk pre) st).fs).Nodup := by
  induction ps generalizing st with
  | nil => exact h
  | cons p ps ih =>
    rw [List.foldl_cons]
    refine ih _ ?_
    unfold gallery_proc_step
    by_cases hdl : env.downloadOk p.guid
    · simp only [hdl, if_pos]
      exact insertFile_nodup _ _ h
    · simpa [hdl] using h

theorem grm_step_fs (dir gid : String) (now : DateTime) (st : GalleryState)
    (g : String) :
    (gallery_rm_step dir gid now st g).fs = st.fs.erase (galleryPath dir g) := by
  unfold gallery_rm_step
  by_cases hmem : galleryPath dir g ∈ st.fs
  · simp [hmem]
  · simp only [hmem, if_neg, ite_false]
    rw [List.erase_of_not_mem hmem]

theorem grm_fold_results (dir gid : String) (now : DateTime) (gs : List String)
    (st : GalleryState) :
    (gs.foldl (gallery_rm_step dir gid now) st).results
      = st.results ++ gs.map SyncResult.deleted := by
  induction gs generalizing st with
  | nil => simp
  | cons g gs ih =>
    simp [gallery_rm_step, ih, List.append_assoc]

theorem grm_fold_photos (dir gid : String) (now : DateTime) (gs : List String)
    (st : GalleryState) :
    ((gs.foldl (gallery_rm_step dir gid now) st).index).photos
      = st.index.photos := by
  induction gs generalizing st with
  | nil => rfl
  | cons g gs ih =>
    rw [List.foldl_cons, ih]
    rfl

theorem grm_fold_members_count_ne (dir gid : String) (now : DateTime)
    (gs : List String) (st : GalleryState) (gid' g : String) (h : g ∉ gs) :
    (((gs.foldl (gallery_rm_step dir gid now) st).index).membersAt gid').count g
      = (st.index.membersAt gid').count g := by
  induction gs generalizing st with
  | nil => rfl
  | cons x gs ih =>
    simp only [List.mem_cons, not_or] at h
    rw [List.foldl_cons, ih _ h.2]
    unfold gallery_rm_step
    exact count_membersAt_gallery_remove_ne _ gid x gid' g now h.1

theorem grm_fold_members_count_le (dir gid : String) (now : DateTime)
    (gs : List String) (st : GalleryState) (g : String) :
    (((gs.foldl (gallery_rm_step dir gid now) st).index).membersAt gid).count g
      ≤ (st.index.membersAt gid).count g := by
  induction gs generalizing st with
  | nil => exact Nat.le_refl _
  | cons x gs ih =>
    rw [List.foldl_cons]
    refine Nat.le_trans (ih _) ?_
    unfold gallery_rm_step
    by_cases hgx : g = x
    · subst hgx
      rw [membersAt_gallery_remove_self]
      cases hgal : st.index.get_gallery gid with
      | none => simp
      | some gal =>
        have hm : st.index.membersAt gid = gal.photos := by
          simp [PhotoIndex.membersAt, hgal]
        rw [hm]
        unfold Gallery.remove_photo
        by_cases hmem : g ∈ gal.photos
        · simp only [hmem, if_pos]
          rw [count_removeFirst_self g gal.photos hmem]
          omega
        · simp [hmem]
    · rw [count_membersAt_gallery_remove_ne _ gid x gid g now hgx]

theorem grm_fold_not_member (dir gid : String) (now : DateTime)
    (gs : List String) (st : GalleryState) (g : String) (hg : g ∈ gs)
    (hle : (st.index.membersAt gid).count g ≤ 1) :
    g ∉ ((gs.foldl (gallery_rm_step dir gid now) st).index).membersAt gid := by
  induction gs generalizing st with
  | nil => cases hg
  | cons x gs ih =>
    rw [List.foldl_cons]
    by_cases hgx : g = x
    · subst hgx
      have h0 : (((gallery_rm_step dir gid now st g).index).membersAt gid).count g
          = 0 := count_membersAt_gallery_remove_self _ gid g now hle
      have := grm_fold_members_count_le dir gid now gs (gallery_rm_step dir gid now st g) g
      rw [h0] at this
      intro hmem
      have := List.one_le_count_iff.mpr hmem
      omega
    · rcases List.mem_cons.mp hg with h | h
      · exact absurd h hgx
      · refine ih _ h ?_
        refine Nat.le_trans ?_ hle
        unfold gallery_rm_step
        rw [count_membersAt_gallery_remove_ne _ gid x gid g now hgx]

theorem grm_fold_gallery_other (dir gid : String) (now : DateTime)
    (gs : List String) (st : GalleryState) (gid' : String) (h : gid' ≠ gid) :
    ((gs.foldl (gallery_rm_step dir gid now) st).index).get_gallery gid'
      = st.index.get_gallery gid' := by
  induction gs generalizing st with
  | nil => rfl
  | cons x gs ih =>
    rw [List.foldl_cons, ih]
    unfold gallery_rm_step
    exact get_gallery_gallery_remove_other _ gid x gid' now h

theorem grm_fold_fs_not_mem (dir gid : String) (now : DateTime)
    (gs : List String) (st : GalleryState) (g : String) (hg : g ∈ gs)
    (hnd : st.fs.Nodup)
    (hinj : ∀ x ∈ gs, galleryPath dir g = galleryPath dir x → g = x) :
    galleryPath dir g ∉ (gs.foldl (gallery_rm_step dir gid now) st).fs := by
  induction gs generalizing st with
  | nil => cases hg
  | cons x gs ih =>
    rw [List.foldl_cons]
    by_cases hgx : g = x
    · subst hgx
      intro hmem
      have hsub : galleryPath dir g ∈ (gallery_rm_step dir gid now st g).fs := by
        have : ∀ (gs' : List String) (st' : GalleryState) (f : String),
            f ∈ (gs'.foldl (gallery_rm_step dir gid now) st').fs → f ∈ st'.fs := by
          intro gs'
          induction gs' with
          | nil => intro st' f hf; exact hf
          | cons y ys ihy =>
            intro st' f hf
            rw [List.foldl_cons] at hf
            have := ihy _ _ hf
            rw [grm_step_fs] at this
            exact List.mem_of_mem_erase this
        exact this gs _ _ hmem
      rw [grm_step_fs] at hsub
      exact (List.Nodup.not_mem_erase hnd) hsub
    · refine ih _ (by
        rcases List.mem_cons.mp hg with h | h
        · exact absurd h hgx
        · exact h) ?_ (fun y hy => hinj y (List.mem_cons_of_mem x hy))
      rw [grm_step_fs]
      exact hnd.erase _

theorem grm_fold_fs_mem_ne (dir gid : String) (now : DateTime)
    (gs : List String) (st : GalleryState) (f : String)
    (h : ∀ x ∈ gs, f ≠ galleryPath dir x) :
    (f ∈ (gs.foldl (gallery_rm_step dir gid now) st).fs ↔ f ∈ st.fs) := by
  induction gs generalizing st with
  | nil => exact Iff.rfl
  | cons x gs ih =>
    rw [List.foldl_cons, ih _ (fun y hy => h y (List.mem_cons_of_mem x hy))]
    rw [grm_step_fs]
    exact List.mem_erase_of_ne (h x (List.mem_cons_self x gs))

theorem grm_fold_fs_nodup (dir gid : String) (now : DateTime)
    (gs : List String) (st : GalleryState) (h : st.fs.Nodup) :
    ((gs.foldl (gallery_rm_step dir gid now) st).fs).Nodup := by
  induction gs generalizing st with
  | nil => exact h
  | cons x gs ih =>
    rw [List.foldl_cons]
    refine ih _ ?_
    rw [grm_step_fs]
    exact h.erase _

theorem galleryPath_inj (dir a b : String)
    (h : galleryPath dir a = galleryPath dir b) : a = b := by
  unfold galleryPath at h
  have hd : (dir ++ "/").data ++ (a.data ++ ".jpg".data)
      = (dir ++ "/").data ++ (b.data ++ ".jpg".data) := by
    have := congrArg String.data h
    simpa [List.append_assoc] using this
  have h2 := List.append_cancel_left hd
  exact String.ext (List.append_cancel_right h2)

theorem galleryPath_ne_indexmd (dir g : String) :
    galleryPath dir g ≠ dir ++ "/" ++ "index.md" := by
  intro h
  unfold galleryPath at h
  have hd : (dir ++ "/").data ++ (g.data ++ ".jpg".data)
      = (dir ++ "/").data ++ "index.md".data := by
    have := congrArg String.data h
    simpa [List.append_assoc] using this
  have h2 := List.append_cancel_left hd
  have hjpg : ".jpg".data = ['.', 'j', 'p', 'g'] := rfl
  rw [hjpg] at h2
  have hlast : (g.data ++ ['.', 'j', 'p', 'g']).getLast? = some 'g' := by
    rw [show ['.', 'j', 'p', 'g'] = ['.', 'j', 'p'] ++ ['g'] from rfl,
      ← List.append_assoc]
    exact List.getLast?_concat _
  rw [h2] at hlast
  exact absurd hlast (by decide)

theorem mem_insertFile (f g : String) (l : List String) :
    f ∈ insertFile g l ↔ f ∈ l ∨ f = g := by
  unfold insertFile
  by_cases hmem : g ∈ l
  · simp only [hmem, if_pos]
    constructor
    · exact Or.inl
    · rintro (h | h)
      · exact h
      · exact h ▸ hmem
  · simp [hmem]

/-- C6: in gallery mode, a photo that is a member of the gallery but absent
from the remote album is reported Deleted, its membership is removed from
the gallery, its file disappears from the shared directory, yet its
IndexedPhoto entry in the global photo map is untouched
(PhotoIndex::remove_photo is never invoked) and every other gallery of the
index is untouched. -/
theorem gallery_orphan_frame (env : SyncEnv) (cfg : GalleryCfg)
    (fresh : String) (album : Album) (index : PhotoIndex) (fs : List String)
    (now : DateTime) (gid g : String) (gal : Gallery)
    (hid : get_or_create_gallery_id cfg album index fresh = gid)
    (hgal : index.get_gallery gid = some gal)
    (hndg : gal.photos.Nodup)
    (hmem : g ∈ gal.photos)
    (hng : g ∉ album.guids)
    (hfs : fs.Nodup) :
    SyncResult.deleted g ∈ (sync_gallery env cfg fresh album index fs now).1
    ∧ ((sync_gallery env cfg fresh album index fs now).2.1).get_photo g
        = index.get_photo g
    ∧ g ∉ ((sync_gallery env cfg fresh album index fs now).2.1).membersAt gid
    ∧ galleryPath cfg.content_dir g ∉ (sync_gallery env cfg fresh album index fs now).2.2
    ∧ ∀ gid', gid' ≠ gid →
        ((sync_gallery env cfg fresh album index fs now).2.1).get_gallery gid'
          = index.get_gallery gid' := by
  unfold sync_gallery
  rw [hid]
  dsimp only
  rw [hgal]
  dsimp only
  set dir := cfg.content_dir with hdir
  set to_add := album.photos.filter (fun p => (index.get_photo p.guid).isNone)
    with hta
  set to_update := album.photos.filter (fun p =>
      match index.get_photo p.guid with
      | some ip => !(decide (ip.checksum = p.checksum)
          && gal.photos.contains p.guid)
      | none => false) with htu
  set to_remove := gal.photos.filter (fun x => decide (x ∉ album.guids)) with htr
  set st0 : GalleryState := { results := [], index := index, fs := fs } with hst0
  set st1 := to_add.foldl (gallery_proc_step env dir gid now SyncResult.added
    "Failed to process photo: ") st0 with hst1
  set st2 := to_update.foldl (gallery_proc_step env dir gid now SyncResult.updated
    "Failed to update photo: ") st1 with hst2
  set st3 := to_remove.foldl (gallery_rm_step dir gid now) st2 with hst3
  have hgrm : g ∈ to_remove := by
    rw [htr, List.mem_filter]
    exact ⟨hmem, by simpa using hng⟩
  have hta_g : ∀ p ∈ to_add, p.guid ≠ g := by
    intro p hp hpg
    rw [hta] at hp
    exact hng (hpg ▸ List.mem_map_of_mem Photo.guid (List.mem_filter.mp hp).1)
  have htu_g : ∀ p ∈ to_update, p.guid ≠ g := by
    intro p hp hpg
    rw [htu] at hp
    exact hng (hpg ▸ List.mem_map_of_mem Photo.guid (List.mem_filter.mp hp).1)
  have hta_gm : g ∉ to_add.map Photo.guid := by
    intro hgm
    obtain ⟨p, hp, hpg⟩ := List.mem_map.mp hgm
    exact hta_g p hp hpg
  have htu_gm : g ∉ to_update.map Photo.guid := by
    intro hgm
    obtain ⟨p, hp, hpg⟩ := List.mem_map.mp hgm
    exact htu_g p hp hpg
  have hm0 : st0.index.membersAt gid = gal.photos := by
    rw [hst0]
    simp [PhotoIndex.membersAt, hgal]
  refine ⟨?_, ?_, ?_, ?_, ?_⟩
  · refine List.mem_append_left _ ?_
    rw [hst3, grm_fold_results]
    exact List.mem_append_right _ (List.mem_map_of_mem SyncResult.deleted hgrm)
  · have h3 : st3.index.get_photo g = st2.index.get_photo g := by
      show lookupKey g st3.index.photos = lookupKey g st2.index.photos
      rw [hst3, grm_fold_photos]
    rw [h3, hst2, gproc_fold_photo_frame env dir gid now _ _ to_update st1 g htu_g,
      hst1, gproc_fold_photo_frame env dir gid now _ _ to_add st0 g hta_g]
  · have hle : (st2.index.membersAt gid).count g ≤ 1 := by
      rw [hst2, gproc_fold_members_count env dir gid now _ _ to_update st1 gid g htu_gm,
        hst1, gproc_fold_members_count env dir gid now _ _ to_add st0 gid g hta_gm,
        hm0]
      exact List.nodup_iff_count_le_one.mp hndg g
    rw [hst3]
    exact grm_fold_not_member dir gid now to_remove st2 g hgrm hle
  · have hnd2 : st2.fs.Nodup := by
      rw [hst2]
      refine gproc_fold_fs_nodup env dir gid now _ _ to_update st1 ?_
      rw [hst1]
      exact gproc_fold_fs_nodup env dir gid now _ _ to_add st0 hfs
    have hnotin3 : galleryPath dir g ∉ st3.fs := by
      rw [hst3]
      exact grm_fold_fs_not_mem dir gid now to_remove st2 g hgrm hnd2
        (fun x _ hx => galleryPath_inj dir g x hx)
    intro hin
    rcases (mem_insertFile _ _ _).mp hin with hin | hin
    · exact hnotin3 hin
    · exact galleryPath_ne_indexmd dir g hin
  · intro gid' hgid'
    rw [hst3, grm_fold_gallery_other dir gid now to_remove st2 gid' hgid',
      hst2, gproc_fold_gallery_other env dir gid now _ _ to_update st1 gid' hgid',
      hst1, gproc_fold_gallery_other env dir gid now _ _ to_add st0 gid' hgid']

/-- Concrete gallery fixtures for the gallery-mode witnesses: gallery "g1"
holds members "p1" and "px"; "px" is indexed but no longer remote. -/
def galC6 : Gallery :=
  { id := "g1", name := "G", slug := "g", description := none
    photos := ["p1", "px"]
    created_at := ⟨2024, 1, 1, 0, 0, 0⟩, updated_at := ⟨2024, 1, 1, 0, 0, 0⟩ }

def ipx : IndexedPhoto :=
  IndexedPhoto.new "px" "px.jpg" none ⟨2024, 1, 1, 0, 0, 0⟩ "x" "ux" 800 600
    "gal/px.jpg" ⟨2024, 1, 1, 0, 0, 0⟩

def idxC6 : PhotoIndex :=
  { last_updated := ⟨2024, 1, 1, 0, 0, 0⟩
    photos := [("px", ipx)]
    galleries := [("g1", galC6)] }

def cfgC6 : GalleryCfg :=
  { content_dir := "gal", gallery_name := "G", gallery_description := none
    index_path := "idx" }

/-- Witness for C6 at the concrete gallery fixtures. -/
theorem gallery_orphan_frame_witness :
    SyncResult.deleted "px"
        ∈ (sync_gallery envW cfgC6 "u" albumW idxC6 ["gal/px.jpg"]
            ⟨2024, 1, 2, 0, 0, 0⟩).1
    ∧ ((sync_gallery envW cfgC6 "u" albumW idxC6 ["gal/px.jpg"]
          ⟨2024, 1, 2, 0, 0, 0⟩).2.1).get_photo "px" = idxC6.get_photo "px"
    ∧ "px" ∉ ((sync_gallery envW cfgC6 "u" albumW idxC6 ["gal/px.jpg"]
          ⟨2024, 1, 2, 0, 0, 0⟩).2.1).membersAt "g1"
    ∧ galleryPath cfgC6.content_dir "px"
        ∉ (sync_gallery envW cfgC6 "u" albumW idxC6 ["gal/px.jpg"]
            ⟨2024, 1, 2, 0, 0, 0⟩).2.2
    ∧ ∀ gid', gid' ≠ "g1" →
        ((sync_gallery envW cfgC6 "u" albumW idxC6 ["gal/px.jpg"]
            ⟨2024, 1, 2, 0, 0, 0⟩).2.1).get_gallery gid'
          = idxC6.get_gallery gid' :=
  gallery_orphan_frame envW cfgC6 "u" albumW idxC6 ["gal/px.jpg"]
    ⟨2024, 1, 2, 0, 0, 0⟩ "g1" "px" galC6 (by decide) rfl (by decide)
    (by decide) (by decide) (by decide)

/-- C10: in gallery mode a photo is reported Unchanged only when its indexed
checksum equals the remote checksum AND it is already a member of the
gallery snapshot; a photo with an equal checksum that is not yet a member is
reprocessed — re-downloaded into the shared directory, re-indexed, added to
the membership — and reported Updated, never Unchanged. -/
theorem gallery_unchanged_requires_membership (env : SyncEnv) (cfg : GalleryCfg)
    (fresh : String) (album : Album) (index : PhotoIndex) (fs : List String)
    (now : DateTime) (gid : String) (gal : Gallery) (p : Photo) (ip : IndexedPhoto)
    (hid : get_or_create_gallery_id cfg album index fresh = gid)
    (hgal : index.get_gallery gid = some gal)
    (hnd : (album.photos.map Photo.guid).Nodup)
    (hp : p ∈ album.photos)
    (hip : index.get_photo p.guid = some ip)
    (heq : ip.checksum = p.checksum)
    (hnotmem : p.guid ∉ gal.photos)
    (hdl : env.downloadOk p.guid = true) :
    (∀ q, SyncResult.unchanged q ∈ (sync_gallery env cfg fresh album index fs now).1 →
        ∃ p' ∈ album.photos, p'.guid = q
          ∧ (∃ e, index.get_photo q = some e ∧ e.checksum = p'.checksum)
          ∧ q ∈ gal.photos)
    ∧ SyncResult.updated p.guid ∈ (sync_gallery env cfg fresh album index fs now).1
    ∧ SyncResult.unchanged p.guid ∉ (sync_gallery env cfg fresh album index fs now).1
    ∧ p.guid ∈ ((sync_gallery env cfg fresh album index fs now).2.1).membersAt gid
    ∧ ((sync_gallery env cfg fresh album index fs now).2.1).get_photo p.guid
        = some (process_photo_built env p (galleryPath cfg.content_dir p.guid) now)
    ∧ galleryPath cfg.content_dir p.guid
        ∈ (sync_gallery env cfg fresh album index fs now).2.2 := by
  unfold sync_gallery
  rw [hid]
  dsimp only
  rw [hgal]
  dsimp only
  set dir := cfg.content_dir with hdir
  set to_add := album.photos.filter (fun q => (index.get_photo q.guid).isNone)
    with hta
  set to_update := album.photos.filter (fun q =>
      match index.get_photo q.guid with
      | some e => !(decide (e.checksum = q.checksum)
          && gal.photos.contains q.guid)
      | none => false) with htu
  set to_remove := gal.photos.filter (fun x => decide (x ∉ album.guids)) with htr
  set st0 : GalleryState := { results := [], index := index, fs := fs } with hst0
  set st1 := to_add.foldl (gallery_proc_step env dir gid now SyncResult.added
    "Failed to process photo: ") st0 with hst1
  set st2 := to_update.foldl (gallery_proc_step env dir gid now SyncResult.updated
    "Failed to update photo: ") st1 with hst2
  set st3 := to_remove.foldl (gallery_rm_step dir gid now) st2 with hst3
  have hpg : p.guid ∈ album.guids := List.mem_map_of_mem Photo.guid hp
  have hcontains : gal.photos.contains p.guid = false := by
    simpa using hnotmem
  have hptu : p ∈ to_update := by
    rw [htu, List.mem_filter]
    refine ⟨hp, ?_⟩
    simp only [hip]
    simp
    exact Or.inr hnotmem
  have hpta : p ∉ to_add := by
    rw [hta, List.mem_filter]
    intro hmem
    rw [hip] at hmem
    simpa using hmem.2
  have hptr : p.guid ∉ to_remove := by
    rw [htr, List.mem_filter]
    intro hmem
    exact hnotmem hmem.1
  have hres3 : st3.results = st2.results ++ to_remove.map SyncResult.deleted := by
    rw [hst3, grm_fold_results]
  have hres2 : st2.results = st1.results ++ to_update.map (fun q =>
      if env.downloadOk q.guid then SyncResult.updated q.guid
      else SyncResult.failed q.guid
        ("Failed to update photo: " ++ ("Failed to download photo " ++ q.guid))) := by
    rw [hst2, gproc_fold_results]
  have hres1 : st1.results = to_add.map (fun q =>
      if env.downloadOk q.guid then SyncResult.added q.guid
      else SyncResult.failed q.guid
        ("Failed to process photo: " ++ ("Failed to download photo " ++ q.guid))) := by
    rw [hst1, gproc_fold_results]
    rfl
  have hnoun : ∀ q, SyncResult.unchanged q ∉ st3.results := by
    intro q hin
    rw [hres3] at hin
    rcases List.mem_append.mp hin with hin | hin
    · rw [hres2] at hin
      rcases List.mem_append.mp hin with hin | hin
      · rw [hres1] at hin
        obtain ⟨x, _, hx⟩ := List.mem_map.mp hin
        by_cases hdx : env.downloadOk x.guid <;> simp [hdx] at hx
      · obtain ⟨x, _, hx⟩ := List.mem_map.mp hin
        by_cases hdx : env.downloadOk x.guid <;> simp [hdx] at hx
    · obtain ⟨x, _, hx⟩ := List.mem_map.mp hin
      cases hx
  refine ⟨?_, ?_, ?_, ?_, ?_, ?_⟩
  · intro q hin
    rcases List.mem_append.mp hin with hin | hin
    · exact absurd hin (hnoun q)
    · obtain ⟨p', hp', hpq⟩ := List.mem_map.mp hin
      rcases List.mem_filter.mp hp' with ⟨hp'mem, hp'cond⟩
      have hq : p'.guid = q := SyncResult.unchanged.inj hpq
      refine ⟨p', hp'mem, hq, ?_⟩
      rw [← hq]
      cases he : index.get_photo p'.guid with
      | none => rw [he] at hp'cond; cases hp'cond
      | some e =>
        rw [he] at hp'cond
        have hand := (Bool.and_eq_true _ _).mp hp'cond
        refine ⟨⟨e, rfl, of_decide_eq_true hand.1⟩, ?_⟩
        have := hand.2
        simpa using this
  · refine List.mem_append_left _ ?_
    rw [hres3]
    refine List.mem_append_left _ ?_
    rw [hres2]
    refine List.mem_append_right _ ?_
    have : SyncResult.updated p.guid = (fun q =>
        if env.downloadOk q.guid then SyncResult.updated q.guid
        else SyncResult.failed q.guid
          ("Failed to update photo: " ++ ("Failed to download photo " ++ q.guid))) p := by
      simp [hdl]
    rw [this]
    exact List.mem_map_of_mem _ hptu
  · intro hin
    rcases List.mem_append.mp hin with hin | hin
    · exact hnoun p.guid hin
    · obtain ⟨p', hp', hpq⟩ := List.mem_map.mp hin
      rcases List.mem_filter.mp hp' with ⟨hp'mem, hp'cond⟩
      have hq : p'.guid = p.guid := SyncResult.unchanged.inj hpq
      have hp'p : p' = p := guid_inj hnd hp'mem hp hq
      subst hp'p
      rw [hip] at hp'cond
      simp at hp'cond
      exact hnotmem hp'cond.2
  · have hkey1 : gid ∈ keysOf st1.index.galleries := by
      rw [hst1, gproc_fold_keys]
      by_contra hk
      rw [hst0] at hk
      have hnone : index.get_gallery gid = none :=
        (lookupKey_eq_none_iff gid index.galleries).mpr (by simpa using hk)
      rw [hgal] at hnone
      cases hnone
    have h2 : p.guid ∈ st2.index.membersAt gid := by
      rw [hst2]
      exact gproc_fold_members_in env dir gid now _ _ to_update st1 p hptu hdl hkey1
    have hcount : 1 ≤ (st2.index.membersAt gid).count p.guid :=
      List.one_le_count_iff.mpr h2
    have h3 : ((st3.index).membersAt gid).count p.guid
        = (st2.index.membersAt gid).count p.guid := by
      rw [hst3]
      exact grm_fold_members_count_ne dir gid now to_remove st2 gid p.guid hptr
    refine List.one_le_count_iff.mp ?_
    rw [h3]
    exact hcount
  · have h3 : st3.index.get_photo p.guid = st2.index.get_photo p.guid := by
      show lookupKey p.guid st3.index.photos = lookupKey p.guid st2.index.photos
      rw [hst3, grm_fold_photos]
    rw [h3, hst2]
    refine gproc_fold_photo_found env dir gid now _ _ to_update st1
      ?_ p hptu hdl
    rw [htu]
    exact filtered_guids_nodup album _ hnd
  · refine (mem_insertFile _ _ _).mpr (Or.inl ?_)
    have h2 : galleryPath dir p.guid ∈ st2.fs := by
      rw [hst2]
      refine (gproc_fold_fs_mem env dir gid now _ _ to_update st1 _).mpr ?_
      exact Or.inr ⟨p, hptu, hdl, rfl⟩
    rw [hst3]
    refine (grm_fold_fs_mem_ne dir gid now to_remove st2 _ ?_).mpr h2
    intro x hx hpx
    have : p.guid = x := galleryPath_inj dir p.guid x hpx
    subst this
    exact hptr hx

/-- Fixtures for the C10 witness: "p1" is indexed with the very checksum the
remote album carries, yet is not a member of gallery "g1". -/
def ipA : IndexedPhoto :=
  IndexedPhoto.new "p1" "p1.jpg" none ⟨2024, 1, 1, 0, 0, 0⟩ "a" "u1" 800 600
    "gal/p1.jpg" ⟨2024, 1, 1, 0, 0, 0⟩

def galC10 : Gallery :=
  { id := "g1", name := "G", slug := "g", description := none
    photos := ["px"]
    created_at := ⟨2024, 1, 1, 0, 0, 0⟩, updated_at := ⟨2024, 1, 1, 0, 0, 0⟩ }

def idxC10 : PhotoIndex :=
  { last_updated := ⟨2024, 1, 1, 0, 0, 0⟩
    photos := [("px", ipx), ("p1", ipA)]
    galleries := [("g1", galC10)] }

/-- Witness for C10 at the concrete fixtures. -/
theorem gallery_unchanged_requires_membership_witness :
    (∀ q, SyncResult.unchanged q
          ∈ (sync_gallery envW cfgC6 "u" albumW idxC10 [] ⟨2024, 1, 2, 0, 0, 0⟩).1 →
        ∃ p' ∈ albumW.photos, p'.guid = q
          ∧ (∃ e, idxC10.get_photo q = some e ∧ e.checksum = p'.checksum)
          ∧ q ∈ galC10.photos)
    ∧ SyncResult.updated photoW1.guid
        ∈ (sync_gallery envW cfgC6 "u" albumW idxC10 [] ⟨2024, 1, 2, 0, 0, 0⟩).1
    ∧ SyncResult.unchanged photoW1.guid
        ∉ (sync_gallery envW cfgC6 "u" albumW idxC10 [] ⟨2024, 1, 2, 0, 0, 0⟩).1
    ∧ photoW1.guid ∈ ((sync_gallery envW cfgC6 "u" albumW idxC10 []
        ⟨2024, 1, 2, 0, 0, 0⟩).2.1).membersAt "g1"
    ∧ ((sync_gallery envW cfgC6 "u" albumW idxC10 []
          ⟨2024, 1, 2, 0, 0, 0⟩).2.1).get_photo photoW1.guid
        = some (process_photo_built envW photoW1
            (galleryPath cfgC6.content_dir photoW1.guid) ⟨2024, 1, 2, 0, 0, 0⟩)
    ∧ galleryPath cfgC6.content_dir photoW1.guid
        ∈ (sync_gallery envW cfgC6 "u" albumW idxC10 [] ⟨2024, 1, 2, 0, 0, 0⟩).2.2 :=
  gallery_unchanged_requires_membership envW cfgC6 "u" albumW idxC10 []
    ⟨2024, 1, 2, 0, 0, 0⟩ "g1" galC10 photoW1 ipA (by decide) rfl (by decide)
    (by decide) rfl (by decide) (by decide) rfl

/-- OutputType from config.rs. -/
inductive OutputType where
  | photostream
  | gallery
deriving DecidableEq, Repr

/-- OutputConfig from config.rs (the fields main.rs consumes). -/
structure OutputConfig where
  output_type : OutputType
  album_url : String
  out_dir : String
  data_file : String
  name : Option String
  description : Option String
  enabled : Bool

/-- Environment of the Sync command of main.rs: the per-pass oracles for
index-file loading, remote album fetching, content-directory creation (the
batch-fatal I/O of the sync step), the pre-existing files of a gallery
directory, and the process clock. -/
structure MainEnv where
  sync : SyncEnv
  loadIndex : String → Except String PhotoIndex
  fetchAlbum : String → Except String Album
  createDirOk : String → Bool
  filesIn : String → List String
  freshId : String
  now : DateTime

/-- One iteration of the Sync loop of main.rs for a single output target:
a failed index load only warns and falls back to a new empty index; a
failed album fetch skips the target (`continue`) without a process-level
error; a sync failure propagates and aborts the whole pass. Returns none
when the target was skipped, else the target's outcome list. -/
def run_sync_target (env : MainEnv) (cfg : OutputConfig) :
    Except String (Option (List SyncResult)) :=
  let photo_index :=
    match env.loadIndex cfg.data_file with
    | Except.ok idx => idx
    | Except.error _ => PhotoIndex.new env.now
  match env.fetchAlbum cfg.album_url with
  | Except.error _ => Except.ok none
  | Except.ok album =>
    match cfg.output_type with
    | OutputType.photostream =>
      if env.createDirOk cfg.out_dir then
        Except.ok (some (sync_photos env.sync cfg.out_dir album photo_index env.now).1)
      else Except.error "Failed to sync photostream"
    | OutputType.gallery =>
      if env.createDirOk cfg.out_dir then
        Except.ok (some (sync_gallery env.sync
          ⟨cfg.out_dir, cfg.name.getD "Gallery", cfg.description, cfg.data_file⟩
          env.freshId album photo_index (env.filesIn cfg.out_dir) env.now).1)
      else Except.error "Failed to sync gallery"

/-- The Sync command's loop over the configured outputs, collecting the
outcome list of every target that was actually synced. -/
def main_sync_pass (env : MainEnv) :
    List OutputConfig → Except String (List (List SyncResult))
  | [] => Except.ok []
  | cfg :: rest =>
    match run_sync_target env cfg with
    | Except.error e => Except.error e
    | Except.ok none => main_sync_pass env rest
    | Except.ok (some results) =>
      match main_sync_pass env rest with
      | Except.error e => Except.error e
      | Except.ok reports => Except.ok (results :: reports)

/-- Environment whose index loads always fail while album fetches succeed. -/
def envC8 : MainEnv :=
  { sync := envW
    loadIndex := fun _ => Except.error "Failed to read index file"
    fetchAlbum := fun _ => Except.ok albumW
    createDirOk := fun _ => true
    filesIn := fun _ => []
    freshId := "u"
    now := ⟨2024, 1, 2, 0, 0, 0⟩ }

/-- Environment whose index loads and album fetches both fail. -/
def envF8 : MainEnv :=
  { sync := envW
    loadIndex := fun _ => Except.error "e1"
    fetchAlbum := fun _ => Except.error "e2"
    createDirOk := fun _ => true
    filesIn := fun _ => []
    freshId := "u"
    now := ⟨2024, 1, 2, 0, 0, 0⟩ }

def cfgC8 : OutputConfig :=
  { output_type := OutputType.photostream, album_url := "url", out_dir := "c"
    data_file := "d", name := some "T1", description := none, enabled := true }

/-- C8 counterexample: a failure to read the index file does not abort the
target's sync pass — the target proceeds on a fresh empty index and
produces Added outcomes — and a failure to fetch the remote album is not
surfaced as a hard error — the pass completes with Except.ok, merely
skipping the target. Both refute the claim as stated at concrete inputs. -/
theorem main_sync_batch_fatal_counterexample :
    (envC8.loadIndex cfgC8.data_file = Except.error "Failed to read index file"
      ∧ main_sync_pass envC8 [cfgC8]
          = Except.ok [[SyncResult.added "p1", SyncResult.added "p2"]])
    ∧ (envF8.fetchAlbum cfgC8.album_url = Except.error "e2"
      ∧ main_sync_pass envF8 [cfgC8] = Except.ok []) := by
  exact ⟨⟨rfl, rfl⟩, ⟨rfl, rfl⟩⟩

/-- C8 as amended: a failed album fetch skips that target (with only a
console warning, not a process-level error) and all other targets are
processed exactly as if the skipped target were absent; a failed index
read does not abort the target at all — the target runs as if an empty
index had been loaded. -/
theorem main_sync_batch_fatal_amended :
    (∀ (env : MainEnv) (pre post : List OutputConfig) (cfg : OutputConfig)
        (e : String),
        env.fetchAlbum cfg.album_url = Except.error e →
        main_sync_pass env (pre ++ cfg :: post) = main_sync_pass env (pre ++ post))
    ∧ (∀ (env : MainEnv) (cfg : OutputConfig) (e : String),
        env.loadIndex cfg.data_file = Except.error e →
        run_sync_target env cfg
          = run_sync_target
              { env with loadIndex := fun _ => Except.ok (PhotoIndex.new env.now) }
              cfg) := by
  constructor
  · intro env pre post cfg e hf
    induction pre with
    | nil =>
      have hrt : run_sync_target env cfg = Except.ok none := by
        unfold run_sync_target
        rw [hf]
      simp only [List.nil_append]
      rw [main_sync_pass, hrt]
    | cons c cs ih =>
      simp only [List.cons_append]
      rw [main_sync_pass, main_sync_pass, ih]
  · intro env cfg e hl
    unfold run_sync_target
    rw [hl]

/-- Witness for the amended C8 at concrete environments. -/
theorem main_sync_batch_fatal_amended_witness :
    main_sync_pass envF8 ([] ++ cfgC8 :: []) = main_sync_pass envF8 ([] ++ [])
    ∧ run_sync_target envC8 cfgC8
        = run_sync_target
            { envC8 with loadIndex := fun _ => Except.ok (PhotoIndex.new envC8.now) }
            cfgC8 :=
  ⟨main_sync_batch_fatal_amended.1 envF8 [] [] cfgC8 "e2" rfl,
   main_sync_batch_fatal_amended.2 envC8 cfgC8 "Failed to read index file" rfl⟩
